import Mathlib

set_option maxHeartbeats 1000000
set_option maxRecDepth 10000

/-!
Shallow embedding of the story-telling app (src/lib/utils.ts, src/lib/errors.ts /
validation, src/lib/llm-factory.ts, src/lib/image-factory.ts, src/lib/constants.ts,
src/app/api/story routes).

JavaScript strings are modeled as lists of characters (Unicode code points).  This is
exact for BMP text, where one code point is one UTF-16 code unit; UTF-16 lengths and
substring offsets coincide with code-point counts on such text.
-/

abbrev JSStr := List Char

/-- Whitespace accepted by JSON.parse, and the ASCII core of the whitespace removed by
String.prototype.trim (space, tab, line feed, carriage return). -/
def isJsWs (c : Char) : Bool :=
  c = ' ' || c = '\t' || c = '\n' || c = '\r'

/-- Model of String.prototype.trim: drop whitespace from both ends. -/
def jsTrim (l : JSStr) : JSStr :=
  ((l.dropWhile isJsWs).reverse.dropWhile isJsWs).reverse

/-- Modelled from the spec: JavaScript runtime values as produced by the host builtin
JSON.parse, plus the undefined value returned by missing property accesses.  A number
is kept as its source lexeme (no claim in this development depends on floating-point
value identity, only on which strings parse). -/
inductive JValue where
  | null
  | undef
  | bool (b : Bool)
  | num (lexeme : JSStr)
  | str (s : JSStr)
  | arr (elems : List JValue)
  | obj (fields : List (JSStr × JValue))
deriving Repr

/-- Errors thrown by modeled JavaScript code (JSON.parse syntax errors, TypeError from
property access on null/undefined, explicit throw statements). -/
inductive JSError where
  | syntaxError
  | typeError
  | thrown (msg : JSStr)
deriving Repr, DecidableEq

def skipWs (l : JSStr) : JSStr := l.dropWhile isJsWs

def isDigitChar (c : Char) : Bool := '0' ≤ c && c ≤ '9'

def startsWithStr (pat l : JSStr) : Bool := l.take pat.length = pat

/-- Modelled from the spec: the integer part of a JSON number lexeme
(0, or a nonzero digit followed by digits). -/
def lexNumInt : JSStr → Option (JSStr × JSStr)
  | '0' :: rest => some (['0'], rest)
  | c :: rest =>
    if isDigitChar c then
      let run := rest.takeWhile isDigitChar
      some (c :: run, rest.dropWhile isDigitChar)
    else none
  | [] => none

/-- Modelled from the spec: optional fraction part of a JSON number lexeme. -/
def lexNumFrac : JSStr → Option (JSStr × JSStr)
  | '.' :: rest =>
    match rest.takeWhile isDigitChar with
    | [] => none
    | ds => some ('.' :: ds, rest.dropWhile isDigitChar)
  | l => some ([], l)

/-- Modelled from the spec: optional exponent part of a JSON number lexeme. -/
def lexNumExp : JSStr → Option (JSStr × JSStr)
  | e :: rest =>
    if e = 'e' || e = 'E' then
      match rest with
      | s :: rest2 =>
        if s = '+' || s = '-' then
          match rest2.takeWhile isDigitChar with
          | [] => none
          | ds => some (e :: s :: ds, rest2.dropWhile isDigitChar)
        else
          match rest.takeWhile isDigitChar with
          | [] => none
          | ds => some (e :: ds, rest.dropWhile isDigitChar)
      | [] => none
    else some ([], e :: rest)
  | [] => some ([], [])

/-- Modelled from the spec: a full JSON number lexeme with optional leading minus. -/
def lexNum (l : JSStr) : Option (JSStr × JSStr) :=
  let (sign, body) :=
    match l with
    | '-' :: rest => (['-'], rest)
    | _ => (([] : JSStr), l)
  match lexNumInt body with
  | none => none
  | some (ip, r1) =>
    match lexNumFrac r1 with
    | none => none
    | some (fp, r2) =>
      match lexNumExp r2 with
      | none => none
      | some (ep, r3) => some (sign ++ ip ++ fp ++ ep, r3)

def hexDigitVal (c : Char) : Option Nat :=
  if isDigitChar c then some (c.toNat - '0'.toNat)
  else if 'a' ≤ c && c ≤ 'f' then some (10 + (c.toNat - 'a'.toNat))
  else if 'A' ≤ c && c ≤ 'F' then some (10 + (c.toNat - 'A'.toNat))
  else none

/-- Modelled from the spec: the body of a JSON string literal after the opening quote.
Returns the decoded content and the input remaining after the closing quote.  A \u
escape denoting a surrogate code unit is outside the code-point model and is mapped to
the default character; the serializer modeled below never emits such escapes. -/
def lexStrBody : JSStr → Option (JSStr × JSStr)
  | [] => none
  | c :: rest =>
    if c = '"' then some ([], rest)
    else if c = '\\' then
      match rest with
      | [] => none
      | e :: r =>
        if e = '"' then (lexStrBody r).map (fun (s, t) => ('"' :: s, t))
        else if e = '\\' then (lexStrBody r).map (fun (s, t) => ('\\' :: s, t))
        else if e = '/' then (lexStrBody r).map (fun (s, t) => ('/' :: s, t))
        else if e = 'b' then (lexStrBody r).map (fun (s, t) => ('\x08' :: s, t))
        else if e = 'f' then (lexStrBody r).map (fun (s, t) => ('\x0c' :: s, t))
        else if e = 'n' then (lexStrBody r).map (fun (s, t) => ('\n' :: s, t))
        else if e = 'r' then (lexStrBody r).map (fun (s, t) => ('\r' :: s, t))
        else if e = 't' then (lexStrBody r).map (fun (s, t) => ('\t' :: s, t))
        else if e = 'u' then
          match r with
          | h1 :: h2 :: h3 :: h4 :: r2 =>
            match hexDigitVal h1, hexDigitVal h2, hexDigitVal h3, hexDigitVal h4 with
            | some a, some b2, some c2, some d =>
              (lexStrBody r2).map
                (fun (s, t) => (Char.ofNat (((a * 16 + b2) * 16 + c2) * 16 + d) :: s, t))
            | _, _, _, _ => none
          | _ => none
        else none
    else if c.toNat < 0x20 then none
    else (lexStrBody rest).map (fun (s, t) => (c :: s, t))

mutual

/-- Modelled from the spec: recursive descent over JSON text, one value.  The host
builtin JSON.parse is total on finite input; fuel is an embedding device and one unit
per input character plus one is always sufficient, since every recursive call is made
strictly after consuming at least one character of input. -/
def parseJsonVal : Nat → JSStr → Option (JValue × JSStr)
  | 0, _ => none
  | Nat.succ f, l =>
    match skipWs l with
    | [] => none
    | c :: r =>
      if c = '\x7b' then
        match skipWs r with
        | '\x7d' :: r2 => some (JValue.obj [], r2)
        | r1 => (parseObjMembers f r1).map (fun (kvs, t) => (JValue.obj kvs, t))
      else if c = '[' then
        match skipWs r with
        | ']' :: r2 => some (JValue.arr [], r2)
        | r1 => (parseArrElems f r1).map (fun (xs, t) => (JValue.arr xs, t))
      else if c = '"' then (lexStrBody r).map (fun (s, t) => (JValue.str s, t))
      else if startsWithStr "true".data (c :: r) then some (JValue.bool true, (c :: r).drop 4)
      else if startsWithStr "false".data (c :: r) then some (JValue.bool false, (c :: r).drop 5)
      else if startsWithStr "null".data (c :: r) then some (JValue.null, (c :: r).drop 4)
      else (lexNum (c :: r)).map (fun (lx, t) => (JValue.num lx, t))

/-- Modelled from the spec: one or more comma-separated object members up to the
closing brace (the caller has handled the empty-object case). -/
def parseObjMembers : Nat → JSStr → Option (List (JSStr × JValue) × JSStr)
  | 0, _ => none
  | Nat.succ f, l =>
    match l with
    | '"' :: r =>
      match lexStrBody r with
      | none => none
      | some (key, r1) =>
        match skipWs r1 with
        | ':' :: r2 =>
          match parseJsonVal f r2 with
          | none => none
          | some (v, r3) =>
            match skipWs r3 with
            | ',' :: r4 =>
              (parseObjMembers f (skipWs r4)).map
                (fun (kvs, t) => ((key, v) :: kvs, t))
            | '}' :: r4 => some ([(key, v)], r4)
            | _ => none
        | _ => none
    | _ => none

/-- Modelled from the spec: one or more comma-separated array elements up to the
closing bracket (the caller has handled the empty-array case). -/
def parseArrElems : Nat → JSStr → Option (List JValue × JSStr)
  | 0, _ => none
  | Nat.succ f, l =>
    match parseJsonVal f l with
    | none => none
    | some (v, r) =>
      match skipWs r with
      | ',' :: r1 => (parseArrElems f r1).map (fun (xs, t) => (v :: xs, t))
      | ']' :: r1 => some ([v], r1)
      | _ => none

end

/-- Modelled from the spec: the host builtin JSON.parse.  Parses one value and
requires the rest of the input to be whitespace. -/
def jsonParse (l : JSStr) : Except JSError JValue :=
  match parseJsonVal (l.length + 1) l with
  | some (v, rest) => if skipWs rest = [] then Except.ok v else Except.error JSError.syntaxError
  | none => Except.error JSError.syntaxError

/-! Constants from src/lib/constants.ts (the members used by the embedded code). -/

namespace STORY_CONSTANTS

def IMAGE_PROMPT_PREVIEW_LENGTH : Nat := 50

def MIN_PARAGRAPH_LENGTH : Nat := 100

def IMAGE_QUALITY : JSStr := "8k resolution".data

def FALLBACK_PREFACE : JSStr := "A story unfolds".data

def FALLBACK_PARAGRAPH : JSStr := "The story continues...".data

def FALLBACK_IMAGE_PROMPT_SUFFIX : JSStr := "Additional scene from a \x7bgenre\x7d story".data

def MIN_CHARACTERS : Int := 1

def MAX_CHARACTERS : Int := 6

def MIN_PARAGRAPHS : Int := 3

def MAX_PARAGRAPHS : Int := 10

def MAX_CHARACTER_NAME_LENGTH : Nat := 50

end STORY_CONSTANTS

/-- Whitespace matched by the regex class \s (ASCII part: space, tab, line feed,
vertical tab, form feed, carriage return). -/
def isRegexWs (c : Char) : Bool :=
  c = ' ' || c = '\t' || c = '\n' || c = '\x0b' || c = '\x0c' || c = '\r'

/-- ASCII lowercasing, modeling String.prototype.toLowerCase as used against the
all-ASCII marker strings below. -/
def jsToLowerAscii (c : Char) : Char :=
  if 'A' ≤ c && c ≤ 'Z' then Char.ofNat (c.toNat + 32) else c

/-- Model of String.prototype.includes: pat occurs as a contiguous substring. -/
def hasSubstr (pat : JSStr) : JSStr → Bool
  | [] => pat.isEmpty
  | c :: rest => startsWithStr pat (c :: rest) || hasSubstr pat rest

/-- Model of the string form of String.prototype.replace: replace the first
occurrence of pat (a plain string) by repl.  Dollar substitution patterns in repl are
not modeled; no replacement string used by the embedded code contains a dollar. -/
def jsReplaceFirst (pat repl : JSStr) : JSStr → JSStr
  | [] => if pat.isEmpty then repl else []
  | c :: rest =>
    if startsWithStr pat (c :: rest) then repl ++ (c :: rest).drop pat.length
    else c :: jsReplaceFirst pat repl rest

/-! ImagePromptUtils from src/lib/utils.ts. -/

namespace ImagePromptUtils

/-- STYLE_MAPPINGS lookup.  Lookup of a key absent from the record yields undefined
(modeled none); prototype-chain keys such as "constructor" are outside the model and
never produced by the embedded call sites. -/
def STYLE_MAPPINGS (genre : JSStr) : Option JSStr :=
  if genre = "fantasy".data then some "magical, ethereal, fantasy art style, detailed".data
  else if genre = "mystery".data then some "noir, shadowy, mysterious atmosphere, dramatic lighting".data
  else if genre = "sci-fi".data then some "futuristic, cyberpunk, sci-fi concept art, neon colors".data
  else if genre = "romance".data then some "soft lighting, romantic, beautiful, artistic".data
  else if genre = "horror".data then some "dark, eerie, gothic, haunting atmosphere".data
  else if genre = "adventure".data then some "dynamic, action-packed, adventurous, cinematic".data
  else none

/-- enhancePrompt: append genre styling and the quality suffix.  The source uses
STYLE_MAPPINGS[genre] || default; every mapped style is a nonempty (truthy) string,
so the default applies exactly when the lookup misses. -/
def enhancePrompt (originalPrompt genre : JSStr) : JSStr :=
  let style := (STYLE_MAPPINGS genre).getD "detailed, artistic".data
  originalPrompt ++ ", ".data ++ style ++ ", high quality, ".data ++ STORY_CONSTANTS.IMAGE_QUALITY

/-- createFallbackPrompt: genre-prefixed preview of the text, enhanced. -/
def createFallbackPrompt (text genre : JSStr) : JSStr :=
  let preview := text.take STORY_CONSTANTS.IMAGE_PROMPT_PREVIEW_LENGTH
  let basePrompt :=
    genre ++ " scene: ".data ++ preview ++
      (if STORY_CONSTANTS.IMAGE_PROMPT_PREVIEW_LENGTH < text.length then "...".data else [])
  enhancePrompt basePrompt genre

end ImagePromptUtils

/-! Model of JSON.stringify and of JavaScript value coercions needed by the parsing
utilities. -/

def hexDigitChar (n : Nat) : Char :=
  if n < 10 then Char.ofNat ('0'.toNat + n) else Char.ofNat ('a'.toNat + n - 10)

/-- Modelled from the spec: JSON.stringify escaping of one character of a string. -/
def encodeJsonChar (c : Char) : JSStr :=
  if c = '"' then ['\\', '"']
  else if c = '\\' then ['\\', '\\']
  else if c = '\x08' then ['\\', 'b']
  else if c = '\t' then ['\\', 't']
  else if c = '\n' then ['\\', 'n']
  else if c = '\x0c' then ['\\', 'f']
  else if c = '\r' then ['\\', 'r']
  else if c.toNat < 0x20 then
    '\\' :: 'u' :: '0' :: '0' :: hexDigitChar (c.toNat / 16) :: [hexDigitChar (c.toNat % 16)]
  else [c]

/-- Modelled from the spec: JSON.stringify of a string value. -/
def encodeJsonStr (s : JSStr) : JSStr :=
  '"' :: (s.flatMap encodeJsonChar) ++ ['"']

/-- Is the numeric value of a JSON number lexeme zero (every mantissa digit 0)? -/
def numLexIsZero (lx : JSStr) : Bool :=
  (lx.takeWhile (fun c => c ≠ 'e' && c ≠ 'E')).all (fun c => !isDigitChar c || c = '0')

/-- JavaScript truthiness of a value. -/
def jsTruthy : JValue → Bool
  | JValue.null => false
  | JValue.undef => false
  | JValue.bool b => b
  | JValue.num lx => !numLexIsZero lx
  | JValue.str s => !s.isEmpty
  | JValue.arr _ => true
  | JValue.obj _ => true

/-- Does typeof yield the tag object for this value (null, arrays and objects)? -/
def typeofIsObject : JValue → Bool
  | JValue.null => true
  | JValue.arr _ => true
  | JValue.obj _ => true
  | _ => false

def typeofIsString : JValue → Bool
  | JValue.str _ => true
  | _ => false

/-- Last-binding lookup in an object field list (later JSON members overwrite
earlier ones in the host object). -/
def lookupField (kvs : List (JSStr × JValue)) (k : JSStr) : Option JValue :=
  (kvs.reverse.find? (fun kv => kv.1 = k)).map (fun kv => kv.2)

/-- Property access v.k: throws TypeError on null/undefined, yields the field of an
object (undefined when absent), undefined for named properties of other values.
Prototype-chain properties are outside the model; no accessed key is one. -/
def jsGetField (v : JValue) (k : JSStr) : Except JSError JValue :=
  match v with
  | JValue.null => Except.error JSError.typeError
  | JValue.undef => Except.error JSError.typeError
  | JValue.obj kvs => Except.ok ((lookupField kvs k).getD JValue.undef)
  | _ => Except.ok JValue.undef

/-- Total field projection used only after validation has established the shape. -/
def jGetPure (v : JValue) (k : JSStr) : JValue :=
  match v with
  | JValue.obj kvs => (lookupField kvs k).getD JValue.undef
  | _ => JValue.undef

/-! The story shape produced by StoryParsingUtils (utils.ts): a preface and a list of
paragraphs with text and imagePrompt. -/

structure StoryPara where
  text : JSStr
  imagePrompt : JSStr
deriving Repr, DecidableEq

structure StoryShape where
  preface : JSStr
  paragraphs : List StoryPara
deriving Repr, DecidableEq

/-- The JValue denoted by a story-shaped object. -/
def storyParaJValue (p : StoryPara) : JValue :=
  JValue.obj [("text".data, JValue.str p.text), ("imagePrompt".data, JValue.str p.imagePrompt)]

def storyJValue (s : StoryShape) : JValue :=
  JValue.obj
    [("preface".data, JValue.str s.preface),
     ("paragraphs".data, JValue.arr (s.paragraphs.map storyParaJValue))]

/-- Modelled from the spec: the JSON serialization (JSON.stringify, no spacing) of a
story-shaped object with fields preface and paragraphs in insertion order. -/
def stringifyPara (p : StoryPara) : JSStr :=
  '\x7b' :: "\"text\":".data ++ encodeJsonStr p.text ++
    ",\"imagePrompt\":".data ++ encodeJsonStr p.imagePrompt ++ ['\x7d']

def stringifyParas : List StoryPara → JSStr
  | [] => []
  | [p] => stringifyPara p
  | p :: q :: rest => stringifyPara p ++ ',' :: stringifyParas (q :: rest)

def stringifyStory (s : StoryShape) : JSStr :=
  '\x7b' :: "\"preface\":".data ++ encodeJsonStr s.preface ++
    ",\"paragraphs\":[".data ++ stringifyParas s.paragraphs ++ "]\x7d".data

/-! JSONUtils from src/lib/utils.ts. -/

namespace JSONUtils

/-- One paragraph entry check of validateStoryStructure:
typeof p.text === 'string' && typeof p.imagePrompt === 'string', over the array,
with the host's every short-circuiting on the first failing entry.  Property access
on a null or undefined entry throws. -/
def validateParas : List JValue → Except JSError Bool
  | [] => Except.ok true
  | p :: rest => do
    let t ← jsGetField p "text".data
    if typeofIsString t then
      let ip ← jsGetField p "imagePrompt".data
      if typeofIsString ip then validateParas rest
      else return false
    else return false

/-- validateStoryStructure: data is truthy, of object type, has a string preface and
an array paragraphs whose entries all have string text and string imagePrompt. -/
def validateStoryStructure (data : JValue) : Except JSError Bool := do
  if !(jsTruthy data && typeofIsObject data) then return false
  let pref ← jsGetField data "preface".data
  if !typeofIsString pref then return false
  let paras ← jsGetField data "paragraphs".data
  match paras with
  | JValue.arr entries => validateParas entries
  | _ => return false

/-- Strategy 2 of parseWithFallback: the regex match /\x7b[\s\S]*\x7d/, i.e. the span
from the first opening brace through the last closing brace, when the last closing
brace lies strictly after the first opening brace. -/
def jsMatchBraces (l : JSStr) : Option JSStr :=
  match l.findIdx? (fun c => c = '\x7b') with
  | none => none
  | some i =>
    match l.reverse.findIdx? (fun c => c = '\x7d') with
    | none => none
    | some jr =>
      let j := l.length - 1 - jr
      if i < j then some ((l.drop i).take (j - i + 1)) else none

/-- Strategy 3 cleanup, step 1: replace(/^```json\s*/, ''). -/
def stripLeadFence (l : JSStr) : JSStr :=
  if l.take 7 = "```json".data then (l.drop 7).dropWhile isRegexWs else l

/-- Strategy 3 cleanup, step 2: replace(/\s*```$/, ''). -/
def stripTrailFence (l : JSStr) : JSStr :=
  if l.reverse.take 3 = "```".data then ((l.reverse.drop 3).dropWhile isRegexWs).reverse
  else l

/-- Strategy 3 cleanup, step 3: replace(/^[^\x7b]*/, ''), drop everything before the
first opening brace (everything, when there is none). -/
def stripBeforeBrace (l : JSStr) : JSStr :=
  l.dropWhile (fun c => c ≠ '\x7b')

/-- Strategy 3 cleanup, step 4: replace(/[^\x7d]*$/, ''), drop everything after the
last closing brace (everything, when there is none). -/
def stripAfterBrace (l : JSStr) : JSStr :=
  (l.reverse.dropWhile (fun c => c ≠ '\x7d')).reverse

def cleanedString (jsonString : JSStr) : JSStr :=
  stripAfterBrace (stripBeforeBrace (stripTrailFence (stripLeadFence (jsTrim jsonString))))

/-- parseWithFallback: direct parse of the trimmed input; on throw, parse of the
brace-to-brace regex extraction; then parse of the fence-and-brace cleaned string
when nonempty; finally fallback || null.  Every throw is caught, so the result is
always an ok value. -/
def parseWithFallback (jsonString : JSStr) (fallback : Option JValue) : Except JSError JValue :=
  match jsonParse (jsTrim jsonString) with
  | Except.ok v => Except.ok v
  | Except.error _ =>
    let step2 : Option JValue :=
      match jsMatchBraces jsonString with
      | some m =>
        match jsonParse m with
        | Except.ok v => some v
        | Except.error _ => none
      | none => none
    match step2 with
    | some v => Except.ok v
    | none =>
      let cleaned := cleanedString jsonString
      let step3 : Option JValue :=
        if cleaned.isEmpty then none
        else
          match jsonParse cleaned with
          | Except.ok v => some v
          | Except.error _ => none
      match step3 with
      | some v => Except.ok v
      | none =>
        Except.ok
          (match fallback with
           | some fv => if jsTruthy fv then fv else JValue.null
           | none => JValue.null)

end JSONUtils

/-- Projection of a validated JValue to the story shape declared by the TypeScript
type predicate (the source returns the object itself after type narrowing; the
embedding projects the declared fields, which validation guarantees are present). -/
def toStoryShape (v : JValue) : StoryShape :=
  let paras :=
    match jGetPure v "paragraphs".data with
    | JValue.arr entries =>
      entries.map (fun p =>
        { text := match jGetPure p "text".data with | JValue.str s => s | _ => []
          imagePrompt := match jGetPure p "imagePrompt".data with | JValue.str s => s | _ => [] })
    | _ => []
  { preface := match jGetPure v "preface".data with | JValue.str s => s | _ => []
    paragraphs := paras }

/-! StoryParsingUtils from src/lib/utils.ts. -/

namespace StoryParsingUtils

/-- Does /[.!?]$/ match this (raw, untrimmed) line? -/
def lineEndsPunct (line : JSStr) : Bool :=
  match line.getLast? with
  | some c => c = '.' || c = '!' || c = '?'
  | none => false

/-- The preface markers searched for in lowercased lines. -/
def containsMarker (line : JSStr) : Bool :=
  let lower := line.map jsToLowerAscii
  hasSubstr "summary:".data lower || hasSubstr "preface:".data lower ||
    hasSubstr "story:".data lower

/-- line.replace(/^[^:]*:\s*/, '').trim(): text after the first colon, with the
whitespace following the colon and surrounding whitespace removed (the line is left
as is when it has no colon, then trimmed). -/
def prefaceOfLine (line : JSStr) : JSStr :=
  if line.any (fun c => c = ':') then
    jsTrim (((line.dropWhile (fun c => c ≠ ':')).drop 1).dropWhile isRegexWs)
  else jsTrim line

/-- The padding paragraph appended by the count-reconciliation loop. -/
def fallbackPara (genre : JSStr) : StoryPara :=
  { text := STORY_CONSTANTS.FALLBACK_PARAGRAPH
    imagePrompt :=
      jsReplaceFirst "\x7bgenre\x7d".data genre STORY_CONSTANTS.FALLBACK_IMAGE_PROMPT_SUFFIX }

def flushPara (current genre : JSStr) : StoryPara :=
  { text := current, imagePrompt := ImagePromptUtils.createFallbackPrompt current genre }

/-- One iteration of the extractParagraphs loop over (paragraphs, currentParagraph):
a line with nonblank content is appended to the buffer (space-separated) and the
buffer is flushed when the raw line ends in sentence punctuation and the buffer
exceeds MIN_PARAGRAPH_LENGTH; a blank line flushes a nonempty buffer. -/
def extractStep (genre : JSStr) (st : List StoryPara × JSStr) (line : JSStr) :
    List StoryPara × JSStr :=
  let (paras, current) := st
  if !(jsTrim line).isEmpty then
    let current2 := current ++ (if current.isEmpty then [] else [' ']) ++ jsTrim line
    if lineEndsPunct line && decide (STORY_CONSTANTS.MIN_PARAGRAPH_LENGTH < current2.length) then
      (paras ++ [flushPara current2 genre], [])
    else (paras, current2)
  else if !current.isEmpty then (paras ++ [flushPara current genre], [])
  else (paras, current)

/-- extractParagraphs: fold the loop over the lines, flush a remaining buffer, pad
with fallback paragraphs while fewer than requested (the while loop appends
request.paragraphs - length copies), then slice to the requested count. -/
def extractParagraphs (lines : List JSStr) (genre : JSStr) (nPara : Nat) : List StoryPara :=
  let st := lines.foldl (extractStep genre) ([], [])
  let paras := if !st.2.isEmpty then st.1 ++ [flushPara st.2 genre] else st.1
  let padded := paras ++ List.replicate (nPara - paras.length) (fallbackPara genre)
  padded.take nPara

/-- parseAsPlainText: keep the lines with nonblank content, use the first line
containing a preface marker for the preface (taking the following lines as the story
lines, located via indexOf on the line content), defaulting to FALLBACK_PREFACE,
then extract paragraphs. -/
def parseAsPlainText (rawResponse : JSStr) (genre : JSStr) (nPara : Nat) : StoryShape :=
  let lines := (rawResponse.splitOn '\n').filter (fun line => !(jsTrim line).isEmpty)
  match lines.find? containsMarker with
  | some line =>
    { preface := prefaceOfLine line
      paragraphs := extractParagraphs (lines.drop (lines.indexOf line + 1)) genre nPara }
  | none =>
    { preface := STORY_CONSTANTS.FALLBACK_PREFACE
      paragraphs := extractParagraphs lines genre nPara }

/-- parseStoryResponse: parseWithFallback, accept a validated story structure
unchanged, otherwise fall back to plain-text parsing.  The request record of the
source is passed as its two used fields genre and paragraphs. -/
def parseStoryResponse (rawResponse : JSStr) (genre : JSStr) (nPara : Nat) :
    Except JSError StoryShape := do
  let jsonResult ← JSONUtils.parseWithFallback rawResponse none
  let ok ← JSONUtils.validateStoryStructure jsonResult
  if ok then return toStoryShape jsonResult
  else return parseAsPlainText rawResponse genre nPara

end StoryParsingUtils

/-! InputSanitizer from src/lib/validation.ts. -/

/-- The input remaining after the first closing angle bracket, when one exists. -/
def afterGt : JSStr → Option JSStr
  | [] => none
  | c :: rest => if c = '>' then some rest else afterGt rest

/-- Global replace of /<[^>]*>/ by the empty string: at an opening angle bracket
with a later closing one, the span through the first closing bracket is removed and
scanning resumes after it; an opening bracket with no closing one is kept.  Fuel is
an embedding device; one unit per input character suffices since every step consumes
at least one character. -/
def stripTagsF : Nat → JSStr → JSStr
  | 0, l => l
  | Nat.succ _, [] => []
  | Nat.succ f, c :: rest =>
    if c = '<' then
      match afterGt rest with
      | some rest2 => stripTagsF f rest2
      | none => c :: stripTagsF f rest
    else c :: stripTagsF f rest

/-- Do the next pat.length characters, lowercased, spell pat? -/
def lowercaseAhead (pat l : JSStr) : Bool :=
  (l.take pat.length).map jsToLowerAscii = pat

/-- Global replace of /javascript:/i by the empty string: a case-insensitive
occurrence is removed and scanning resumes after it (earlier text is not rescanned,
matching the host regex semantics). -/
def stripJSF : Nat → JSStr → JSStr
  | 0, l => l
  | Nat.succ _, [] => []
  | Nat.succ f, c :: rest =>
    if lowercaseAhead "javascript:".data (c :: rest) then
      stripJSF f ((c :: rest).drop 11)
    else c :: stripJSF f rest

def isWordChar (c : Char) : Bool :=
  ('a' ≤ c && c ≤ 'z') || ('A' ≤ c && c ≤ 'Z') || isDigitChar c || c = '_'

/-- Attempt of /on\w+\s*=/i at the start of the input, returning the input after the
match.  The backtracking engine accepts exactly: o, n (case-insensitive), the maximal
nonempty word-character run, a whitespace run, then the equals sign — a shorter
word-character run cannot complete the pattern, since the character after it is a
word character, which is neither whitespace nor the equals sign. -/
def matchOnHandler : JSStr → Option JSStr
  | c1 :: c2 :: rest =>
    if (c1 = 'o' || c1 = 'O') && (c2 = 'n' || c2 = 'N') then
      match rest.takeWhile isWordChar with
      | [] => none
      | _ =>
        match (rest.dropWhile isWordChar).dropWhile isRegexWs with
        | '=' :: r3 => some r3
        | _ => none
    else none
  | _ => none

/-- Global replace of /on\w+\s*=/i by the empty string. -/
def stripOnF : Nat → JSStr → JSStr
  | 0, l => l
  | Nat.succ _, [] => []
  | Nat.succ f, c :: rest =>
    match matchOnHandler (c :: rest) with
    | some r3 => stripOnF f r3
    | none => c :: stripOnF f rest

namespace InputSanitizer

/-- sanitizeString: trim, strip HTML tags, strip javascript: schemes, strip inline
event-handler patterns, strip null bytes, truncate to 1000.  The non-string input
branch of the source (returning the empty string) is outside the typed embedding. -/
def sanitizeString (input : JSStr) : JSStr :=
  let s1 := jsTrim input
  let s2 := stripTagsF s1.length s1
  let s3 := stripJSF s2.length s2
  let s4 := stripOnF s3.length s3
  let s5 := s4.filter (fun c => c ≠ '\x00')
  s5.take 1000

end InputSanitizer

/-! StoryValidator from src/lib/validation.ts, over the request values it inspects. -/

/-- Raw request field values considered by the validator.  A num is an integral
JavaScript number (Math.floor is the identity on these; non-integral numbers are not
modeled); nan is the NaN number. -/
inductive ReqVal where
  | num (n : Int)
  | nan
  | str (s : JSStr)
  | arr (xs : List ReqVal)
  | boolv (b : Bool)
  | null
deriving Repr

/-- The four properties of the request object read by validateStoryRequest; none
models an absent or undefined field. -/
structure ReqData where
  genre : Option ReqVal
  characters : Option ReqVal
  paragraphs : Option ReqVal
  characterNames : Option ReqVal

/-- isValidGenre from src/types (six fixed genres). -/
def isValidGenre (genre : JSStr) : Bool :=
  genre = "fantasy".data || genre = "mystery".data || genre = "sci-fi".data ||
    genre = "romance".data || genre = "horror".data || genre = "adventure".data

def digitsVal (ds : JSStr) : Int :=
  ds.foldl (fun a c => a * 10 + Int.ofNat (c.toNat - '0'.toNat)) 0

/-- Model of the host parseInt(input, 10): skip leading whitespace, optional sign,
then the leading decimal-digit run; NaN (none) when the run is empty.  Precision
loss of the host's float result on very long digit runs is not modeled. -/
def jsParseInt (s : JSStr) : Option Int :=
  let t := s.dropWhile isRegexWs
  let (sign, body) :=
    match t with
    | '-' :: r => ((-1 : Int), r)
    | '+' :: r => ((1 : Int), r)
    | _ => ((1 : Int), t)
  match body.takeWhile isDigitChar with
  | [] => none
  | ds => some (sign * digitsVal ds)

namespace InputSanitizer

/-- sanitizeNumber: an in-range integral number, or an in-range parseInt of a
string; null (none) otherwise. -/
def sanitizeNumber (input : Option ReqVal) (min max : Int) : Option Int :=
  match input with
  | some (ReqVal.num n) => if min ≤ n && n ≤ max then some n else none
  | some (ReqVal.str s) =>
    match jsParseInt s with
    | some p => if min ≤ p && p ≤ max then some p else none
    | none => none
  | _ => none

/-- The body of sanitizeCharacterNames on an array: keep the strings, sanitize each,
keep those of length in (0, MAX_CHARACTER_NAME_LENGTH], truncate to MAX_CHARACTERS. -/
def sanitizeNamesList (xs : List ReqVal) : List JSStr :=
  ((((xs.filterMap fun x => match x with | ReqVal.str s => some s | _ => none).map
      sanitizeString).filter
      (fun name => 0 < name.length && name.length ≤ STORY_CONSTANTS.MAX_CHARACTER_NAME_LENGTH)).take
    STORY_CONSTANTS.MAX_CHARACTERS.toNat)

/-- sanitizeCharacterNames: undefined unless the input is an array. -/
def sanitizeCharacterNames (names : Option ReqVal) : Option (List JSStr) :=
  match names with
  | some (ReqVal.arr xs) => some (sanitizeNamesList xs)
  | _ => none

end InputSanitizer

structure VError where
  field : JSStr
  message : JSStr
deriving Repr, DecidableEq

structure ValidationResult where
  isValid : Bool
  errors : List VError
deriving Repr, DecidableEq

namespace ERROR_MESSAGES

def INVALID_GENRE : JSStr := "Invalid genre provided".data

def INVALID_CHARACTER_COUNT : JSStr := "Character count must be between 1 and 6".data

def INVALID_PARAGRAPH_COUNT : JSStr := "Paragraph count must be between 3 and 10".data

def INVALID_CHARACTER_NAMES : JSStr := "Character names must be non-empty strings".data

def CHARACTER_NAME_TOO_LONG : JSStr := "Character names must be less than 50 characters".data

end ERROR_MESSAGES

namespace StoryValidator

/-- The genre errors: a falsy or non-string genre, or one outside the six. -/
def genreErrors (genre : Option ReqVal) : List VError :=
  match genre with
  | some (ReqVal.str g) =>
    if g.isEmpty then [⟨"genre".data, ERROR_MESSAGES.INVALID_GENRE⟩]
    else if !isValidGenre g then [⟨"genre".data, ERROR_MESSAGES.INVALID_GENRE⟩]
    else []
  | _ => [⟨"genre".data, ERROR_MESSAGES.INVALID_GENRE⟩]

/-- The character-names mismatch message with its interpolated counts. -/
def mismatchMessage (namesLen : Nat) (c : Int) : JSStr :=
  ("Number of character names (" ++ toString namesLen ++
    ") must match character count (" ++ toString c ++ ")").data

/-- The characterNames errors: non-array input, an empty or overlong sanitized name
(unreachable after the sanitizing filter, kept as in the source), and the
count-mismatch check guarded by a truthy charactersCount. -/
def characterNamesErrors (names : Option ReqVal) (charactersCount : Option Int) : List VError :=
  match names with
  | none => []
  | some (ReqVal.arr xs) =>
    let sanitizedNames := InputSanitizer.sanitizeNamesList xs
    let shapeErrs :=
      if sanitizedNames.any (fun name => name.length = 0) then
        [⟨"characterNames".data, ERROR_MESSAGES.INVALID_CHARACTER_NAMES⟩]
      else if sanitizedNames.any
          (fun name => STORY_CONSTANTS.MAX_CHARACTER_NAME_LENGTH < name.length) then
        [⟨"characterNames".data, ERROR_MESSAGES.CHARACTER_NAME_TOO_LONG⟩]
      else []
    let mismatchErrs :=
      match charactersCount with
      | some c =>
        if c ≠ 0 && (sanitizedNames.length : Int) ≠ c then
          [⟨"characterNames".data, mismatchMessage sanitizedNames.length c⟩]
        else []
      | none => []
    shapeErrs ++ mismatchErrs
  | some _ => [⟨"characterNames".data, ERROR_MESSAGES.INVALID_CHARACTER_NAMES⟩]

/-- validateStoryRequest over the request fields it reads; the none input models
data that is absent or not an object. -/
def validateStoryRequest (data : Option ReqData) : ValidationResult :=
  match data with
  | none =>
    { isValid := false
      errors := [⟨"root".data, "Request data must be an object".data⟩] }
  | some request =>
    let charactersCount :=
      InputSanitizer.sanitizeNumber request.characters STORY_CONSTANTS.MIN_CHARACTERS
        STORY_CONSTANTS.MAX_CHARACTERS
    let paragraphsCount :=
      InputSanitizer.sanitizeNumber request.paragraphs STORY_CONSTANTS.MIN_PARAGRAPHS
        STORY_CONSTANTS.MAX_PARAGRAPHS
    let errors :=
      genreErrors request.genre ++
      (if charactersCount.isNone then
        [⟨"characters".data, ERROR_MESSAGES.INVALID_CHARACTER_COUNT⟩] else []) ++
      (if paragraphsCount.isNone then
        [⟨"paragraphs".data, ERROR_MESSAGES.INVALID_PARAGRAPH_COUNT⟩] else []) ++
      characterNamesErrors request.characterNames charactersCount
    { isValid := errors.isEmpty, errors := errors }

end StoryValidator

/-! RateLimiter from src/lib/validation.ts.  The process-wide map is keyed by the
client identifier and entries for distinct identifiers are read and written
independently; the embedding carries the entry for one fixed identifier.  Date.now()
values are the now arguments, in milliseconds. -/

structure RLEntry where
  count : Nat
  resetTime : Nat
deriving Repr, DecidableEq

namespace RateLimiter

/-- checkRateLimit for one identifier: result (allowed, resetTime) and the updated
entry. -/
def checkRateLimit (now : Nat) (maxRequests windowMs : Nat) (st : Option RLEntry) :
    (Bool × Nat) × Option RLEntry :=
  match st with
  | none => ((true, now + windowMs), some ⟨1, now + windowMs⟩)
  | some current =>
    if current.resetTime < now then ((true, now + windowMs), some ⟨1, now + windowMs⟩)
    else if maxRequests ≤ current.count then ((false, current.resetTime), some current)
    else ((true, current.resetTime), some ⟨current.count + 1, current.resetTime⟩)

/-- The entry after the first k calls at times t 0, …, t (k-1), starting from no
entry. -/
def stateAfter (t : Nat → Nat) (maxRequests windowMs : Nat) : Nat → Option RLEntry
  | 0 => none
  | Nat.succ k =>
    (checkRateLimit (t k) maxRequests windowMs (stateAfter t maxRequests windowMs k)).2

/-- The (allowed, resetTime) result of call k (counting from 0). -/
def callResult (t : Nat → Nat) (maxRequests windowMs k : Nat) : Bool × Nat :=
  (checkRateLimit (t k) maxRequests windowMs (stateAfter t maxRequests windowMs k)).1

end RateLimiter

/-! Provider constructors from src/lib/llm-factory.ts and src/lib/image-factory.ts:
just the credential handling, which is what distinguishes construction-time from
first-call failures.  The network calls that follow a passed credential guard are
outside the embedding. -/

/-- The environment variables read by the provider constructors; none models an
unset variable. -/
structure Env where
  DEEPINFRA_API_KEY : Option JSStr
  GEMINI_API_KEY : Option JSStr
  GOOGLE_API_KEY : Option JSStr
  REPLICATE_API_TOKEN : Option JSStr

/-- a || b || '' over environment strings (an empty value is falsy). -/
def envOr (a b : Option JSStr) : JSStr :=
  let x := a.getD []
  if x.isEmpty then b.getD [] else x

structure DeepInfraProvider where
  apiKey : JSStr
deriving Repr, DecidableEq

namespace DeepInfraProvider

/-- The DeepInfraProvider constructor: stores process.env.DEEPINFRA_API_KEY || ''
and never throws. -/
def construct (env : Env) : Except JSError DeepInfraProvider :=
  Except.ok { apiKey := env.DEEPINFRA_API_KEY.getD [] }

/-- The credential guard at the top of generateText: throws when the stored key is
empty, before any network activity. -/
def generateTextGuard (p : DeepInfraProvider) : Except JSError Unit :=
  if p.apiKey.isEmpty then Except.error (JSError.thrown "DeepInfra API key not configured".data)
  else Except.ok ()

end DeepInfraProvider

structure GeminiProvider where
  apiKey : JSStr
deriving Repr, DecidableEq

namespace GeminiProvider

/-- The GeminiProvider constructor (llm-factory.ts): throws when
GEMINI_API_KEY || GOOGLE_API_KEY || '' is empty. -/
def construct (env : Env) : Except JSError GeminiProvider :=
  let apiKey := envOr env.GEMINI_API_KEY env.GOOGLE_API_KEY
  if apiKey.isEmpty then Except.error (JSError.thrown "Gemini API key not configured".data)
  else Except.ok { apiKey := apiKey }

end GeminiProvider

structure ReplicateImageProvider where
  apiKey : JSStr
deriving Repr, DecidableEq

namespace ReplicateImageProvider

/-- The ReplicateImageProvider constructor: stores
process.env.REPLICATE_API_TOKEN || '' and never throws. -/
def construct (env : Env) : Except JSError ReplicateImageProvider :=
  Except.ok { apiKey := env.REPLICATE_API_TOKEN.getD [] }

/-- The credential guard at the top of generateImage: throws when the stored key is
empty, before any network activity. -/
def generateImageGuard (p : ReplicateImageProvider) : Except JSError Unit :=
  if p.apiKey.isEmpty then Except.error (JSError.thrown "Replicate API key not configured".data)
  else Except.ok ()

end ReplicateImageProvider

structure GeminiImageProvider where
  apiKey : JSStr
deriving Repr, DecidableEq

namespace GeminiImageProvider

/-- The GeminiImageProvider constructor (image-factory.ts): throws when
GEMINI_API_KEY || GOOGLE_API_KEY || '' is empty. -/
def construct (env : Env) : Except JSError GeminiImageProvider :=
  let apiKey := envOr env.GEMINI_API_KEY env.GOOGLE_API_KEY
  if apiKey.isEmpty then Except.error (JSError.thrown "Gemini API key not configured".data)
  else Except.ok { apiKey := apiKey }

end GeminiImageProvider

/-! MockImageProvider from src/lib/image-factory.ts.  Math.random drives the color
choice; the draw Math.floor(Math.random() * COLORS.length) is passed explicitly as
an index into the six-color palette. -/

/-- UTF-8 encoding of one code point (what Buffer.from(string) produces per
character of well-formed text). -/
def utf8Encode (c : Char) : List Nat :=
  let n := c.toNat
  if n < 0x80 then [n]
  else if n < 0x800 then [0xC0 + n / 64, 0x80 + n % 64]
  else if n < 0x10000 then [0xE0 + n / 4096, 0x80 + (n / 64) % 64, 0x80 + n % 64]
  else [0xF0 + n / 262144, 0x80 + (n / 4096) % 64, 0x80 + (n / 64) % 64, 0x80 + n % 64]

def utf8Bytes (l : JSStr) : List Nat := l.flatMap utf8Encode

def b64Alphabet : JSStr :=
  "ABCDEFGHIJKLMNOPQRSTUVWXYZabcdefghijklmnopqrstuvwxyz0123456789+/".data

def b64Char (n : Nat) : Char := b64Alphabet.getD n 'A'

/-- Base64 of a byte list (Buffer.prototype.toString with the base64 encoding). -/
def b64 : List Nat → JSStr
  | a :: b :: c :: rest =>
    let w := a * 65536 + b * 256 + c
    b64Char (w / 262144) :: b64Char (w / 4096 % 64) :: b64Char (w / 64 % 64) ::
      b64Char (w % 64) :: b64 rest
  | [a, b] =>
    let w := a * 65536 + b * 256
    [b64Char (w / 262144), b64Char (w / 4096 % 64), b64Char (w / 64 % 64), '=']
  | [a] =>
    let w := a * 65536
    [b64Char (w / 262144), b64Char (w / 4096 % 64), '=', '=']
  | [] => []

namespace MockImageProvider

def COLORS : List JSStr :=
  ["#FF6B6B".data, "#4ECDC4".data, "#45B7D1".data, "#96CEB4".data, "#FFEAA7".data,
   "#DDA0DD".data]

def colorAt (i : Fin 6) : JSStr := COLORS.getD i.val []

/-- The SVG template up to the first color interpolation (constants substituted:
SVG_WIDTH 400, SVG_HEIGHT 300, PADDING 20, contentWidth 360, contentHeight 260,
FONT_SIZE 14, LINE_HEIGHT 1.4, PROMPT_TRUNCATE_LENGTH 150). -/
def svgPart1 : JSStr :=
  ("\n      <svg width=\"400\" height=\"300\" xmlns=\"http://www.w3.org/2000/svg\">\n        <defs>\n          <linearGradient id=\"grad\" x1=\"0%\" y1=\"0%\" x2=\"100%\" y2=\"100%\">\n            <stop offset=\"0%\" style=\"stop-color:").data

/-- Between the first and the second color interpolation. -/
def svgPart2 : JSStr :=
  (";stop-opacity:1\" />\n            <stop offset=\"100%\" style=\"stop-color:").data

/-- Between the second color interpolation and the truncated prompt. -/
def svgPart3 : JSStr :=
  ("88;stop-opacity:1\" />\n          </linearGradient>\n        </defs>\n        <rect width=\"400\" height=\"300\" fill=\"url(#grad)\" />\n        <foreignObject x=\"20\" y=\"20\" width=\"360\" height=\"260\">\n          <div xmlns=\"http://www.w3.org/1999/xhtml\" style=\"\n            font-family: Arial, sans-serif;\n            color: white;\n            text-shadow: 2px 2px 4px rgba(0,0,0,0.5);\n            padding: 20px;\n            height: 100%;\n            display: flex;\n            align-items: center;\n            justify-content: center;\n            text-align: center;\n            font-size: 14px;\n            line-height: 1.4;\n            font-weight: bold;\n          \">\n            🎨 ").data

/-- After the prompt, to the end of the template. -/
def svgPart4 : JSStr :=
  ("\n          </div>\n        </foreignObject>\n      </svg>\n    ").data

/-- The interpolated SVG text for a prompt and a drawn color. -/
def mockSvg (prompt : JSStr) (i : Fin 6) : JSStr :=
  svgPart1 ++ colorAt i ++ svgPart2 ++ colorAt i ++ svgPart3 ++
    prompt.take 150 ++ (if 150 < prompt.length then "...".data else []) ++ svgPart4

/-- generateImage: the SVG converted to a base64 data URL.  The color index i is
the value of Math.floor(Math.random() * COLORS.length) drawn by this invocation. -/
def generateImage (prompt : JSStr) (i : Fin 6) : JSStr :=
  "data:image/svg+xml;base64,".data ++ b64 (utf8Bytes (mockSvg prompt i))

end MockImageProvider

/-! The continue endpoint (src/app/api/story/continue/route.ts): construction of
newParagraphs from the parsed continuation paragraphs. -/

structure RouteParagraph where
  id : Nat
  text : JSStr
  imagePrompt : JSStr
deriving Repr, DecidableEq

/-- Lines 120-130 of the continue route: ids start at
existingParagraphs.length + 1 and the image prompts are enhanced. -/
def continueNewParagraphs (existingParagraphs : List JSStr) (genre : JSStr)
    (paras : List StoryPara) : List RouteParagraph :=
  let startingId := existingParagraphs.length + 1
  paras.mapIdx fun index p =>
    { id := startingId + index
      text := p.text
      imagePrompt := ImagePromptUtils.enhancePrompt p.imagePrompt genre }


/-- The UTF-8 bytes of the color-dependent head of the mock SVG (the template through
both color interpolations); everything after it depends only on the prompt. -/
def mockHeadBytes (i : Fin 6) : List Nat :=
  utf8Bytes (MockImageProvider.svgPart1 ++ MockImageProvider.colorAt i ++
    MockImageProvider.svgPart2 ++ MockImageProvider.colorAt i ++ MockImageProvider.svgPart3)

/-- The base64 of the first 219 head bytes (a whole number of 3-byte groups covering
both color interpolations), which is the start of the emitted payload. -/
def mockHeadB64 (i : Fin 6) : JSStr := b64 ((mockHeadBytes i).take 219)


/-- The result contains an HTML tag pattern (a match of the tag-stripping regex): an
opening angle bracket with a closing angle bracket somewhere after it. -/
def containsHtmlTag (l : JSStr) : Prop :=
  ∃ a b c, l = a ++ '<' :: b ++ '>' :: c


/-- The extractParagraphs step as claim C3 words it, for comparison with the source:
identical except that the flush test examines the running buffer (which is built from
trimmed lines) instead of the raw line. -/
def extractStepClaimed (genre : JSStr) (st : List StoryPara × JSStr) (line : JSStr) :
    List StoryPara × JSStr :=
  let (paras, current) := st
  if !(jsTrim line).isEmpty then
    let current2 := current ++ (if current.isEmpty then [] else [' ']) ++ jsTrim line
    if StoryParsingUtils.lineEndsPunct current2 &&
        decide (STORY_CONSTANTS.MIN_PARAGRAPH_LENGTH < current2.length) then
      (paras ++ [StoryParsingUtils.flushPara current2 genre], [])
    else (paras, current2)
  else if !current.isEmpty then
    (paras ++ [StoryParsingUtils.flushPara current genre], [])
  else (paras, current)

/-- extractParagraphs under the claimed flush test. -/
def extractParagraphsClaimed (lines : List JSStr) (genre : JSStr) (nPara : Nat) :
    List StoryPara :=
  let st := lines.foldl (extractStepClaimed genre) ([], [])
  let paras := if !st.2.isEmpty then st.1 ++ [StoryParsingUtils.flushPara st.2 genre] else st.1
  let padded := paras ++ List.replicate (nPara - paras.length)
    (StoryParsingUtils.fallbackPara genre)
  padded.take nPara

/-- The plain-text path as claim C3 words it. -/
def parseAsPlainTextClaimed (rawResponse genre : JSStr) (nPara : Nat) : StoryShape :=
  let lines := (rawResponse.splitOn '\n').filter (fun line => !(jsTrim line).isEmpty)
  match lines.find? StoryParsingUtils.containsMarker with
  | some line =>
    { preface := StoryParsingUtils.prefaceOfLine line
      paragraphs := extractParagraphsClaimed (lines.drop (lines.indexOf line + 1)) genre nPara }
  | none =>
    { preface := STORY_CONSTANTS.FALLBACK_PREFACE
      paragraphs := extractParagraphsClaimed lines genre nPara }

/-- The amended description of the paragraph accumulation, as a direct recursion: a
nonblank line is appended (trimmed, space-separated) to the buffer, which is flushed
when the raw line, including any trailing whitespace, ends in sentence punctuation
and the buffer exceeds MIN_PARAGRAPH_LENGTH; a blank line flushes a nonempty buffer
(unreachable from parseAsPlainText, whose lines are pre-filtered); a nonempty buffer
is flushed at the end. -/
def splitParasAmended (genre : JSStr) : JSStr → List JSStr → List StoryPara
  | buf, [] => if !buf.isEmpty then [StoryParsingUtils.flushPara buf genre] else []
  | buf, line :: rest =>
    if !(jsTrim line).isEmpty then
      let buf2 := buf ++ (if buf.isEmpty then [] else [' ']) ++ jsTrim line
      if StoryParsingUtils.lineEndsPunct line &&
          decide (STORY_CONSTANTS.MIN_PARAGRAPH_LENGTH < buf2.length) then
        StoryParsingUtils.flushPara buf2 genre :: splitParasAmended genre [] rest
      else splitParasAmended genre buf2 rest
    else if !buf.isEmpty then
      StoryParsingUtils.flushPara buf genre :: splitParasAmended genre [] rest
    else splitParasAmended genre [] rest

/-- The first line containing a preface marker together with the lines after it. -/
def splitAtMarker : List JSStr → Option (JSStr × List JSStr)
  | [] => none
  | line :: rest =>
    if StoryParsingUtils.containsMarker line then some (line, rest)
    else splitAtMarker rest

/-- Pad with fallback paragraphs to the requested count and truncate to it. -/
def padTruncate (genre : JSStr) (nPara : Nat) (paras : List StoryPara) : List StoryPara :=
  (paras ++ List.replicate (nPara - paras.length) (StoryParsingUtils.fallbackPara genre)).take
    nPara

/-- The plain-text path as amended: marker split for the preface, amended
accumulation, then count reconciliation. -/
def parseAsPlainTextAmended (rawResponse genre : JSStr) (nPara : Nat) : StoryShape :=
  let lines := (rawResponse.splitOn '\n').filter (fun line => !(jsTrim line).isEmpty)
  match splitAtMarker lines with
  | some (line, rest) =>
    { preface := StoryParsingUtils.prefaceOfLine line
      paragraphs := padTruncate genre nPara (splitParasAmended genre [] rest) }
  | none =>
    { preface := STORY_CONSTANTS.FALLBACK_PREFACE
      paragraphs := padTruncate genre nPara (splitParasAmended genre [] lines) }

/-! Theorems. -/

/-- C7: for every continue-story request, the newParagraphs returned by the continue
endpoint have consecutive ids starting at existingParagraphs.length + 1: the i-th new
paragraph (counting from 0) has id existingParagraphs.length + 1 + i. -/
theorem continue_ids_consecutive (existing : List JSStr) (genre : JSStr)
    (paras : List StoryPara) (i : Nat) (h : i < paras.length)
    (h2 : i < (continueNewParagraphs existing genre paras).length) :
    ((continueNewParagraphs existing genre paras).get ⟨i, h2⟩).id =
      existing.length + 1 + i := by
  unfold continueNewParagraphs
  rw [List.get_mapIdx _ _ _ h]

/-- Witness for C7 at a two-paragraph continuation of a one-paragraph story. -/
theorem continue_ids_consecutive_witness :
    ((continueNewParagraphs ["a".data] "fantasy".data
      [⟨"t1".data, "p1".data⟩, ⟨"t2".data, "p2".data⟩]).get ⟨1, by decide⟩).id = 3 := by
  exact continue_ids_consecutive ["a".data] "fantasy".data
    [⟨"t1".data, "p1".data⟩, ⟨"t2".data, "p2".data⟩] 1 (by decide) (by decide)

/-- C9 counterexample: with no credentials configured, the DeepInfra and Replicate
constructors succeed (storing an empty key) instead of raising; the claim that every
API-key-based provider raises at construction time is false for them. -/
theorem apikey_construct_counterexample :
    DeepInfraProvider.construct ⟨none, none, none, none⟩ =
      Except.ok { apiKey := [] } ∧
    ReplicateImageProvider.construct ⟨none, none, none, none⟩ =
      Except.ok { apiKey := [] } := by
  exact ⟨rfl, rfl⟩

/-- C9 amended: with the required credential missing, the Gemini text and image
providers raise at construction time, while the DeepInfra text provider and the
Replicate image provider construct successfully with an empty stored key and raise
on the first generateText/generateImage call, before any network activity. -/
theorem apikey_construct_amended (env : Env)
    (hg : (envOr env.GEMINI_API_KEY env.GOOGLE_API_KEY).isEmpty = true)
    (hd : (env.DEEPINFRA_API_KEY.getD []).isEmpty = true)
    (hr : (env.REPLICATE_API_TOKEN.getD []).isEmpty = true) :
    (∃ e, GeminiProvider.construct env = Except.error e) ∧
    (∃ e, GeminiImageProvider.construct env = Except.error e) ∧
    (∃ p, DeepInfraProvider.construct env = Except.ok p ∧
      ∃ e, DeepInfraProvider.generateTextGuard p = Except.error e) ∧
    (∃ p, ReplicateImageProvider.construct env = Except.ok p ∧
      ∃ e, ReplicateImageProvider.generateImageGuard p = Except.error e) := by
  refine ⟨?_, ?_, ?_, ?_⟩
  · refine ⟨JSError.thrown "Gemini API key not configured".data, ?_⟩
    simp only [GeminiProvider.construct, hg, if_true]
  · refine ⟨JSError.thrown "Gemini API key not configured".data, ?_⟩
    simp only [GeminiImageProvider.construct, hg, if_true]
  · refine ⟨{ apiKey := env.DEEPINFRA_API_KEY.getD [] }, rfl,
      JSError.thrown "DeepInfra API key not configured".data, ?_⟩
    simp only [DeepInfraProvider.generateTextGuard, hd, if_true]
  · refine ⟨{ apiKey := env.REPLICATE_API_TOKEN.getD [] }, rfl,
      JSError.thrown "Replicate API key not configured".data, ?_⟩
    simp only [ReplicateImageProvider.generateImageGuard, hr, if_true]

/-- Witness for the C9 amended theorem at the all-unset environment. -/
theorem apikey_construct_amended_witness :
    (∃ e, GeminiProvider.construct ⟨none, none, none, none⟩ = Except.error e) ∧
    (∃ e, GeminiImageProvider.construct ⟨none, none, none, none⟩ = Except.error e) ∧
    (∃ p, DeepInfraProvider.construct ⟨none, none, none, none⟩ = Except.ok p ∧
      ∃ e, DeepInfraProvider.generateTextGuard p = Except.error e) ∧
    (∃ p, ReplicateImageProvider.construct ⟨none, none, none, none⟩ = Except.ok p ∧
      ∃ e, ReplicateImageProvider.generateImageGuard p = Except.error e) :=
  apikey_construct_amended ⟨none, none, none, none⟩ rfl rfl rfl

/-- C10: parseWithFallback is total: it never propagates an exception, returning the
parsed value when a strategy succeeds, and the supplied fallback (or null, also when
the fallback is falsy) when the trimmed direct parse, the brace-extraction parse and
the cleaned-string parse all fail. -/
theorem parseWithFallback_total (s : JSStr) (fb : Option JValue) :
    (∃ v, JSONUtils.parseWithFallback s fb = Except.ok v) ∧
    ((jsonParse (jsTrim s)).toOption.isNone = true →
     ((JSONUtils.jsMatchBraces s).bind (fun m => (jsonParse m).toOption)).isNone = true →
     (jsonParse (JSONUtils.cleanedString s)).toOption.isNone = true →
     JSONUtils.parseWithFallback s fb =
       Except.ok
         (match fb with
          | some fv => if jsTruthy fv then fv else JValue.null
          | none => JValue.null)) := by
  constructor
  · unfold JSONUtils.parseWithFallback
    cases hp : jsonParse (jsTrim s) with
    | ok v => exact ⟨v, rfl⟩
    | error e =>
      cases hm : JSONUtils.jsMatchBraces s with
      | some m =>
        cases hq : jsonParse m with
        | ok v => refine ⟨v, ?_⟩; simp only [hq]
        | error e2 =>
          cases hce : (JSONUtils.cleanedString s).isEmpty with
          | true =>
            refine ⟨match fb with
              | some fv => if jsTruthy fv then fv else JValue.null
              | none => JValue.null, ?_⟩
            simp only [hq, hce, if_true]
          | false =>
            cases hc : jsonParse (JSONUtils.cleanedString s) with
            | ok v => refine ⟨v, ?_⟩; simp only [hq, hce, hc, if_false, Bool.false_eq_true]
            | error e3 =>
              refine ⟨match fb with
                | some fv => if jsTruthy fv then fv else JValue.null
                | none => JValue.null, ?_⟩
              simp only [hq, hce, hc, if_false, Bool.false_eq_true]
      | none =>
        cases hce : (JSONUtils.cleanedString s).isEmpty with
        | true =>
          refine ⟨match fb with
            | some fv => if jsTruthy fv then fv else JValue.null
            | none => JValue.null, ?_⟩
          simp only [hce, if_true]
        | false =>
          cases hc : jsonParse (JSONUtils.cleanedString s) with
          | ok v => refine ⟨v, ?_⟩; simp only [hce, hc, if_false, Bool.false_eq_true]
          | error e3 =>
            refine ⟨match fb with
              | some fv => if jsTruthy fv then fv else JValue.null
              | none => JValue.null, ?_⟩
            simp only [hce, hc, if_false, Bool.false_eq_true]
  · intro h1 h2 h3
    unfold JSONUtils.parseWithFallback
    cases hp : jsonParse (jsTrim s) with
    | ok v => rw [hp] at h1; simp [Except.toOption] at h1
    | error e =>
      cases hm : JSONUtils.jsMatchBraces s with
      | some m =>
        rw [hm] at h2
        cases hq : jsonParse m with
        | ok v => simp [hq, Except.toOption] at h2
        | error e2 =>
          cases hce : (JSONUtils.cleanedString s).isEmpty with
          | true => simp only [hq, hce, if_true]
          | false =>
            cases hc : jsonParse (JSONUtils.cleanedString s) with
            | ok v => rw [hc] at h3; simp [Except.toOption] at h3
            | error e3 => simp only [hq, hce, hc, if_false, Bool.false_eq_true]
      | none =>
        cases hce : (JSONUtils.cleanedString s).isEmpty with
        | true => simp only [hce, if_true]
        | false =>
          cases hc : jsonParse (JSONUtils.cleanedString s) with
          | ok v => rw [hc] at h3; simp [Except.toOption] at h3
          | error e3 => simp only [hce, hc, if_false, Bool.false_eq_true]

/-- Witness for C10 at an input on which every strategy fails and a falsy fallback. -/
theorem parseWithFallback_total_witness :
    (∃ v, JSONUtils.parseWithFallback "no json here".data (some (JValue.str [])) =
      Except.ok v) ∧
    JSONUtils.parseWithFallback "no json here".data (some (JValue.str [])) =
      Except.ok JValue.null := by
  have h := parseWithFallback_total "no json here".data (some (JValue.str []))
  exact ⟨h.1, h.2 (by decide) (by decide) (by decide)⟩

/-- After k calls (1 ≤ k ≤ maxRequests) at nondecreasing times inside the first
window, the entry holds count k and the reset time of the first call. -/
theorem rl_state_in_window (t : Nat → Nat) (windowMs : Nat) (maxRequests : Nat)
    (n : Nat)
    (hmono : ∀ i, i ≤ n → t i ≤ t n)
    (hwin : t n < t 0 + windowMs) :
    ∀ k, k ≤ n → k ≤ maxRequests →
      RateLimiter.stateAfter t maxRequests windowMs k =
        (if k = 0 then none else some ⟨k, t 0 + windowMs⟩) := by
  intro k
  induction k with
  | zero => intro _ _; rfl
  | succ k ih =>
    intro hk hmax
    have hk' : k ≤ n := Nat.le_of_succ_le hk
    have hmax' : k ≤ maxRequests := Nat.le_of_succ_le hmax
    have hst := ih hk' hmax'
    unfold RateLimiter.stateAfter
    rw [hst]
    by_cases hk0 : k = 0
    · subst hk0
      simp [RateLimiter.checkRateLimit]
    · simp only [if_neg hk0]
      have htk : t k ≤ t n := hmono k hk'
      have hnotpast : ¬ (t 0 + windowMs < t k) := by omega
      have hcnt : ¬ (maxRequests ≤ k) := by omega
      simp [RateLimiter.checkRateLimit, hnotpast, hcnt]

/-- C6: with the limit configured at 10 requests per 60000 ms window as in the
generate route, for any client the first 10 calls within one window are allowed and
the 11th call in the same window is rejected with a reset time strictly later than
its own time. -/
theorem rate_limit_eleventh_rejected (t : Nat → Nat)
    (hmono : ∀ i, i ≤ 10 → t i ≤ t 10)
    (hwin : t 10 < t 0 + 60000) :
    (∀ k, k ≤ 9 → (RateLimiter.callResult t 10 60000 k).1 = true) ∧
    (RateLimiter.callResult t 10 60000 10).1 = false ∧
    t 10 < (RateLimiter.callResult t 10 60000 10).2 := by
  have hstate := rl_state_in_window t 60000 10 10 hmono hwin
  refine ⟨?_, ?_, ?_⟩
  · intro k hk
    unfold RateLimiter.callResult
    rw [hstate k (by omega) (by omega)]
    by_cases hk0 : k = 0
    · subst hk0; simp [RateLimiter.checkRateLimit]
    · simp only [if_neg hk0]
      have htk : t k ≤ t 10 := hmono k (by omega)
      have hnotpast : ¬ (t 0 + 60000 < t k) := by omega
      have hcnt : ¬ (10 ≤ k) := by omega
      simp [RateLimiter.checkRateLimit, hnotpast, hcnt]
  · unfold RateLimiter.callResult
    rw [hstate 10 (by omega) (by omega)]
    have hnotpast : ¬ (t 0 + 60000 < t 10) := by omega
    simp [RateLimiter.checkRateLimit, hnotpast]
  · unfold RateLimiter.callResult
    rw [hstate 10 (by omega) (by omega)]
    have hnotpast : ¬ (t 0 + 60000 < t 10) := by omega
    simp [RateLimiter.checkRateLimit, hnotpast]
    omega

/-- Witness for C6 with the 11 calls at one-millisecond intervals. -/
theorem rate_limit_eleventh_rejected_witness :
    (∀ k, k ≤ 9 → (RateLimiter.callResult (fun i => i) 10 60000 k).1 = true) ∧
    (RateLimiter.callResult (fun i => i) 10 60000 10).1 = false ∧
    10 < (RateLimiter.callResult (fun i => i) 10 60000 10).2 :=
  rate_limit_eleventh_rejected (fun i => i) (fun i hi => hi) (by decide)

theorem b64_append3 (X : List Nat) :
    ∀ R, X.length % 3 = 0 → b64 (X ++ R) = b64 X ++ b64 R := by
  induction X using b64.induct with
  | case1 a b c rest ih =>
    intro R h
    simp only [List.cons_append, b64, List.append_eq]
    rw [ih R (by simp at h; omega)]
  | case2 a b => intro R h; simp at h
  | case3 a => intro R h; simp at h
  | case4 => intro R h; simp [b64]

theorem mock_payload_decompose (p : JSStr) (i : Fin 6) :
    utf8Bytes (MockImageProvider.mockSvg p i) =
      (mockHeadBytes i).take 219 ++
        ((mockHeadBytes i).drop 219 ++
          utf8Bytes (p.take 150 ++ (if 150 < p.length then "...".data else []) ++
            MockImageProvider.svgPart4)) := by
  unfold MockImageProvider.mockSvg mockHeadBytes utf8Bytes
  simp only [List.flatMap_append, List.append_assoc]
  conv_rhs => rw [← List.append_assoc, List.take_append_drop]
  simp [List.append_assoc]

/-- C8 counterexample: two invocations of the mock image provider with the same
prompt but different random color draws return different data-URI strings; the
provider is not deterministic in the prompt alone. -/
theorem mock_image_not_deterministic :
    MockImageProvider.generateImage "x".data 0 ≠ MockImageProvider.generateImage "x".data 1 := by
  decide

/-- C8 amended: the mock provider's output is a function of the prompt and the drawn
palette index alone, and for a fixed prompt two invocations return the same data-URI
string exactly when they draw the same palette color. -/
theorem mock_image_same_prompt_iff (p : JSStr) (i j : Fin 6) :
    MockImageProvider.generateImage p i = MockImageProvider.generateImage p j ↔ i = j := by
  constructor
  · intro h
    by_contra hne
    have hdistinct : mockHeadB64 i ≠ mockHeadB64 j :=
      (by decide : ∀ a b : Fin 6, a ≠ b → mockHeadB64 a ≠ mockHeadB64 b) i j hne
    apply hdistinct
    have hmul : ∀ a : Fin 6, ((mockHeadBytes a).take 219).length % 3 = 0 := by decide
    unfold MockImageProvider.generateImage at h
    have h2 : b64 (utf8Bytes (MockImageProvider.mockSvg p i)) =
        b64 (utf8Bytes (MockImageProvider.mockSvg p j)) := List.append_cancel_left h
    rw [mock_payload_decompose p i, mock_payload_decompose p j,
      b64_append3 _ _ (hmul i), b64_append3 _ _ (hmul j)] at h2
    have hlen : (mockHeadB64 i).length = (mockHeadB64 j).length :=
      (by decide : ∀ a b : Fin 6, (mockHeadB64 a).length = (mockHeadB64 b).length) i j
    exact (List.append_inj h2 hlen).1
  · rintro rfl; rfl

theorem sanitizeNumber_bounds (inp : Option ReqVal) (mn mx c : Int)
    (h : InputSanitizer.sanitizeNumber inp mn mx = some c) : mn ≤ c ∧ c ≤ mx := by
  unfold InputSanitizer.sanitizeNumber at h
  rcases inp with _ | v
  · simp at h
  · rcases v with n | _ | s | xs | b | _
    · split at h <;> simp_all <;> omega
    · simp at h
    · rcases hp : jsParseInt s with _ | p
      · simp only [hp] at h; simp at h
      · simp only [hp] at h; split at h <;> simp_all <;> omega
    · simp at h
    · simp at h
    · simp at h

theorem validateStoryRequest_isValid_eq (r : ReqData) :
    (StoryValidator.validateStoryRequest (some r)).isValid =
      (StoryValidator.validateStoryRequest (some r)).errors.isEmpty := by
  unfold StoryValidator.validateStoryRequest
  rfl

/-- C4 counterexample: a request with characters 2 and a characterNames array of raw
length 3 (the third entry sanitizes to the empty string and is silently dropped)
passes validation, although the claim requires every request whose characterNames
length differs from characters to be rejected. -/
theorem validator_accepts_mismatched_raw_names :
    (StoryValidator.validateStoryRequest (some
      { genre := some (ReqVal.str "fantasy".data)
        characters := some (ReqVal.num 2)
        paragraphs := some (ReqVal.num 3)
        characterNames := some (ReqVal.arr
          [ReqVal.str "Alice".data, ReqVal.str "Bob".data, ReqVal.str []]) })).isValid
      = true ∧
    ([ReqVal.str "Alice".data, ReqVal.str "Bob".data, ReqVal.str []].length : Int) ≠ 2 := by
  exact ⟨by decide, by decide⟩

/-- C4 amended: validateStoryRequest rejects every request whose characters is not
coercible into 1-6 or whose paragraphs is not coercible into 3-10 (numeric strings
accepted), each failure contributing a field/message error; it rejects a present
characterNames array whose sanitized length differs from the coerced characters
count (the raw array length is compared only after sanitization drops invalid
entries); characters=7 is rejected, characters=6 with 5 valid characterNames is
rejected, and a valid genre with characters=2, two valid names and a valid
paragraphs count passes. -/
theorem validateStoryRequest_bounds_and_names :
    (∀ r : ReqData,
      InputSanitizer.sanitizeNumber r.characters STORY_CONSTANTS.MIN_CHARACTERS
        STORY_CONSTANTS.MAX_CHARACTERS = none →
      (StoryValidator.validateStoryRequest (some r)).isValid = false ∧
      (⟨"characters".data, ERROR_MESSAGES.INVALID_CHARACTER_COUNT⟩ : VError) ∈
        (StoryValidator.validateStoryRequest (some r)).errors) ∧
    (∀ r : ReqData,
      InputSanitizer.sanitizeNumber r.paragraphs STORY_CONSTANTS.MIN_PARAGRAPHS
        STORY_CONSTANTS.MAX_PARAGRAPHS = none →
      (StoryValidator.validateStoryRequest (some r)).isValid = false ∧
      (⟨"paragraphs".data, ERROR_MESSAGES.INVALID_PARAGRAPH_COUNT⟩ : VError) ∈
        (StoryValidator.validateStoryRequest (some r)).errors) ∧
    (∀ (r : ReqData) (xs : List ReqVal) (c : Int),
      r.characterNames = some (ReqVal.arr xs) →
      InputSanitizer.sanitizeNumber r.characters STORY_CONSTANTS.MIN_CHARACTERS
        STORY_CONSTANTS.MAX_CHARACTERS = some c →
      ((InputSanitizer.sanitizeNamesList xs).length : Int) ≠ c →
      (StoryValidator.validateStoryRequest (some r)).isValid = false) ∧
    (StoryValidator.validateStoryRequest (some
      { genre := some (ReqVal.str "fantasy".data), characters := some (ReqVal.num 7)
        paragraphs := some (ReqVal.num 3), characterNames := none })).isValid = false ∧
    (StoryValidator.validateStoryRequest (some
      { genre := some (ReqVal.str "fantasy".data), characters := some (ReqVal.num 6)
        paragraphs := some (ReqVal.num 3)
        characterNames := some (ReqVal.arr
          [ReqVal.str "Ann".data, ReqVal.str "Ben".data, ReqVal.str "Cal".data,
           ReqVal.str "Dee".data, ReqVal.str "Eli".data]) })).isValid = false ∧
    (StoryValidator.validateStoryRequest (some
      { genre := some (ReqVal.str "fantasy".data), characters := some (ReqVal.num 2)
        paragraphs := some (ReqVal.num 3)
        characterNames := some (ReqVal.arr
          [ReqVal.str "Alice".data, ReqVal.str "Bob".data]) })).isValid = true := by
  refine ⟨?_, ?_, ?_, by decide, by decide, by decide⟩
  · intro r h
    have hmem : (⟨"characters".data, ERROR_MESSAGES.INVALID_CHARACTER_COUNT⟩ : VError) ∈
        (StoryValidator.validateStoryRequest (some r)).errors := by
      unfold StoryValidator.validateStoryRequest
      simp [h]
    refine ⟨?_, hmem⟩
    rw [validateStoryRequest_isValid_eq]
    simpa using List.ne_nil_of_mem hmem
  · intro r h
    have hmem : (⟨"paragraphs".data, ERROR_MESSAGES.INVALID_PARAGRAPH_COUNT⟩ : VError) ∈
        (StoryValidator.validateStoryRequest (some r)).errors := by
      unfold StoryValidator.validateStoryRequest
      simp [h]
    refine ⟨?_, hmem⟩
    rw [validateStoryRequest_isValid_eq]
    simpa using List.ne_nil_of_mem hmem
  · intro r xs c hnames hchar hlen
    obtain ⟨hc1, _⟩ := sanitizeNumber_bounds _ _ _ _ hchar
    have hc0 : c ≠ 0 := by
      simp [STORY_CONSTANTS.MIN_CHARACTERS] at hc1
      omega
    have hmem : (⟨"characterNames".data,
        StoryValidator.mismatchMessage (InputSanitizer.sanitizeNamesList xs).length c⟩ : VError) ∈
        (StoryValidator.validateStoryRequest (some r)).errors := by
      unfold StoryValidator.validateStoryRequest
      simp only [hchar]
      unfold StoryValidator.characterNamesErrors
      simp [hnames, hc0, hlen]
    rw [validateStoryRequest_isValid_eq]
    simpa using List.ne_nil_of_mem hmem

/-- Witness for the C4 amended theorem: characters given as the out-of-range numeric
string "0" is rejected with the characters error, and two names against characters 3
trip the sanitized-count mismatch. -/
theorem validateStoryRequest_bounds_and_names_witness :
    ((StoryValidator.validateStoryRequest (some
      { genre := some (ReqVal.str "fantasy".data), characters := some (ReqVal.str "0".data)
        paragraphs := some (ReqVal.num 3), characterNames := none })).isValid = false ∧
    (⟨"characters".data, ERROR_MESSAGES.INVALID_CHARACTER_COUNT⟩ : VError) ∈
      (StoryValidator.validateStoryRequest (some
        { genre := some (ReqVal.str "fantasy".data), characters := some (ReqVal.str "0".data)
          paragraphs := some (ReqVal.num 3), characterNames := none })).errors) ∧
    (StoryValidator.validateStoryRequest (some
      { genre := some (ReqVal.str "fantasy".data), characters := some (ReqVal.num 3)
        paragraphs := some (ReqVal.num 3)
        characterNames := some (ReqVal.arr
          [ReqVal.str "Alice".data, ReqVal.str "Bob".data]) })).isValid = false := by
  refine ⟨validateStoryRequest_bounds_and_names.1 _ (by decide), ?_⟩
  exact validateStoryRequest_bounds_and_names.2.2.1 _
    [ReqVal.str "Alice".data, ReqVal.str "Bob".data] 3 rfl (by decide) (by decide)

theorem containsHtmlTag_iff_sublist (l : JSStr) :
    containsHtmlTag l ↔ List.Sublist ['<', '>'] l := by
  constructor
  · rintro ⟨a, b, c, rfl⟩
    rw [List.append_assoc]
    have h1 : List.Sublist ['<', '>'] (('<' :: b) ++ ('>' :: c)) :=
      List.Sublist.append (List.Sublist.cons₂ _ (List.nil_sublist b))
        (List.Sublist.cons₂ _ (List.nil_sublist c))
    exact List.Sublist.trans h1 (List.sublist_append_right a _)
  · intro h
    induction l with
    | nil => cases h
    | cons x rest ih =>
      cases h with
      | cons _ h1 =>
        obtain ⟨a, b, c, hrest⟩ := ih h1
        exact ⟨x :: a, b, c, by rw [hrest]; rfl⟩
      | cons₂ _ h2 =>
        have hmem : '>' ∈ rest := h2.subset (by simp)
        obtain ⟨s, t, hrest⟩ := List.append_of_mem hmem
        exact ⟨[], s, t, by rw [hrest]; rfl⟩

theorem afterGt_some_sublist : ∀ (l l2 : JSStr), afterGt l = some l2 → List.Sublist l2 l := by
  intro l
  induction l with
  | nil => intro l2 h; simp [afterGt] at h
  | cons c rest ih =>
    intro l2 h
    unfold afterGt at h
    by_cases hc : c = '>'
    · rw [if_pos hc] at h
      cases h
      exact List.sublist_cons_self _ _
    · rw [if_neg hc] at h
      exact (ih l2 h).trans (List.sublist_cons_self _ _)

theorem afterGt_none_not_mem : ∀ (l : JSStr), afterGt l = none → '>' ∉ l := by
  intro l
  induction l with
  | nil => intro _; simp
  | cons c rest ih =>
    intro h
    unfold afterGt at h
    by_cases hc : c = '>'
    · rw [if_pos hc] at h; cases h
    · rw [if_neg hc] at h
      simp only [List.mem_cons, not_or]
      exact ⟨fun he => hc he.symm, ih h⟩

theorem stripTagsF_sublist : ∀ (f : Nat) (l : JSStr), List.Sublist (stripTagsF f l) l := by
  intro f
  induction f with
  | zero => intro l; exact List.Sublist.refl l
  | succ f ih =>
    intro l
    cases l with
    | nil => exact List.Sublist.refl []
    | cons c rest =>
      unfold stripTagsF
      by_cases hc : c = '<'
      · rw [if_pos hc]
        cases hg : afterGt rest with
        | some rest2 =>
          exact ((ih rest2).trans (afterGt_some_sublist rest rest2 hg)).trans
            (List.sublist_cons_self _ _)
        | none => exact List.Sublist.cons₂ _ (ih rest)
      · rw [if_neg hc]
        exact List.Sublist.cons₂ _ (ih rest)

theorem not_mem_of_stripTagsF (f : Nat) (l : JSStr) (hgt : '>' ∉ l) : '>' ∉ stripTagsF f l :=
  fun hm => hgt ((stripTagsF_sublist f l).subset hm)

theorem stripTagsF_tagFree : ∀ (f : Nat) (l : JSStr), l.length ≤ f →
    ¬ List.Sublist ['<', '>'] (stripTagsF f l) := by
  intro f
  induction f with
  | zero =>
    intro l hl
    have : l = [] := List.length_eq_zero.mp (Nat.le_zero.mp hl)
    subst this
    intro h; cases h
  | succ f ih =>
    intro l hl
    cases l with
    | nil => intro h; cases h
    | cons c rest =>
      unfold stripTagsF
      by_cases hc : c = '<'
      · rw [if_pos hc]
        cases hg : afterGt rest with
        | some rest2 =>
          have hlen : rest2.length ≤ f := by
            have h1 := (afterGt_some_sublist rest rest2 hg).length_le
            simp at hl
            omega
          exact ih rest2 hlen
        | none =>
          intro h
          cases h with
          | cons _ h1 => exact ih rest (by simp at hl; omega) h1
          | cons₂ _ h2 =>
            have : '>' ∈ stripTagsF f rest := h2.subset (by simp)
            exact not_mem_of_stripTagsF f rest (afterGt_none_not_mem rest hg) this
      · rw [if_neg hc]
        intro h
        cases h with
        | cons _ h1 => exact ih rest (by simp at hl; omega) h1
        | cons₂ _ h2 => exact hc rfl

theorem stripJSF_sublist : ∀ (f : Nat) (l : JSStr), List.Sublist (stripJSF f l) l := by
  intro f
  induction f with
  | zero => intro l; exact List.Sublist.refl l
  | succ f ih =>
    intro l
    cases l with
    | nil => exact List.Sublist.refl []
    | cons c rest =>
      unfold stripJSF
      by_cases hj : lowercaseAhead "javascript:".data (c :: rest) = true
      · rw [if_pos hj]
        exact (ih _).trans (List.drop_sublist 11 (c :: rest))
      · rw [if_neg hj]
        exact List.Sublist.cons₂ _ (ih rest)

theorem matchOnHandler_sublist : ∀ (l r3 : JSStr), matchOnHandler l = some r3 →
    List.Sublist r3 l := by
  intro l r3 h
  cases l with
  | nil => simp [matchOnHandler] at h
  | cons c1 l1 =>
    cases l1 with
    | nil => simp [matchOnHandler] at h
    | cons c2 rest =>
      simp only [matchOnHandler] at h
      by_cases hon : ((c1 = 'o' || c1 = 'O') && (c2 = 'n' || c2 = 'N')) = true
      · rw [if_pos hon] at h
        split at h
        · cases h
        · split at h
          · cases h
            rename_i heq
            have s1 : List.Sublist ('=' :: r3) (rest.dropWhile isWordChar) := by
              rw [← heq]
              exact List.dropWhile_sublist _
            have s2 : List.Sublist r3 rest :=
              ((List.sublist_cons_self '=' r3).trans s1).trans (List.dropWhile_sublist _)
            exact (s2.trans (List.sublist_cons_self c2 rest)).trans
              (List.sublist_cons_self c1 (c2 :: rest))
          · cases h
      · rw [if_neg hon] at h; cases h

theorem stripOnF_sublist : ∀ (f : Nat) (l : JSStr), List.Sublist (stripOnF f l) l := by
  intro f
  induction f with
  | zero => intro l; exact List.Sublist.refl l
  | succ f ih =>
    intro l
    cases l with
    | nil => exact List.Sublist.refl []
    | cons c rest =>
      unfold stripOnF
      cases hm : matchOnHandler (c :: rest) with
      | some r3 => exact (ih r3).trans (matchOnHandler_sublist _ _ hm)
      | none => exact List.Sublist.cons₂ _ (ih rest)

/-- C5 counterexample: the single-pass replace lets overlapping fragments
reconstruct a javascript: scheme: sanitizing "javajavascript:script:" returns
exactly "javascript:". -/
theorem sanitizeString_reconstructs_javascript :
    InputSanitizer.sanitizeString "javajavascript:script:".data = "javascript:".data ∧
    hasSubstr "javascript:".data
      ((InputSanitizer.sanitizeString "javajavascript:script:".data).map jsToLowerAscii)
      = true := by
  exact ⟨by decide, by decide⟩

/-- C5 amended: for every input string, sanitizeString returns a string of length at
most 1000, containing no null byte and no HTML tag pattern; occurrences of
javascript: schemes and inline event-handler patterns are removed in one
left-to-right pass, which does not prevent overlapping fragments of the input from
reconstructing such an occurrence in the output. -/
theorem sanitizeString_output_safe (s : JSStr) :
    (InputSanitizer.sanitizeString s).length ≤ 1000 ∧
    '\x00' ∉ InputSanitizer.sanitizeString s ∧
    ¬ containsHtmlTag (InputSanitizer.sanitizeString s) := by
  unfold InputSanitizer.sanitizeString
  refine ⟨?_, ?_, ?_⟩
  · simpa using List.length_take_le 1000 _
  · intro hm
    have hm2 := (List.take_sublist 1000 _).subset hm
    simp [List.mem_filter] at hm2
  · rw [containsHtmlTag_iff_sublist]
    intro h
    have h2 : List.Sublist ['<', '>']
        (stripTagsF (jsTrim s).length (jsTrim s)) := by
      refine h.trans ?_
      refine (List.take_sublist 1000 _).trans ?_
      refine (List.filter_sublist _).trans ?_
      refine (stripOnF_sublist _ _).trans ?_
      exact stripJSF_sublist _ _
    exact stripTagsF_tagFree _ _ le_rfl h2

theorem extractParagraphs_length (lines : List JSStr) (genre : JSStr) (nPara : Nat) :
    (StoryParsingUtils.extractParagraphs lines genre nPara).length = nPara := by
  unfold StoryParsingUtils.extractParagraphs
  simp [List.length_take, List.length_append, List.length_replicate]
  omega

theorem parseAsPlainText_length (raw genre : JSStr) (nPara : Nat) :
    (StoryParsingUtils.parseAsPlainText raw genre nPara).paragraphs.length = nPara := by
  unfold StoryParsingUtils.parseAsPlainText
  rcases hf : List.find? StoryParsingUtils.containsMarker
      (List.filter (fun line => !List.isEmpty (jsTrim line)) (List.splitOn '\n' raw)) with _ | line
  · simp [hf, extractParagraphs_length]
  · simp [hf, extractParagraphs_length]

/-- C1 counterexample: a raw response that is valid story JSON with one paragraph is
returned unchanged by parseStoryResponse for a request of 3 paragraphs (3 is within
the 3-10 request range), so the result has 1 paragraph, not the requested 3: the
count postcondition does not hold on the validated-JSON path. -/
theorem parseStoryResponse_json_path_count :
    ((StoryParsingUtils.parseStoryResponse
        "\x7b\"preface\":\"p\",\"paragraphs\":[\x7b\"text\":\"t\",\"imagePrompt\":\"i\"\x7d]\x7d".data
        "fantasy".data 3).map (fun st => st.paragraphs.length)).toOption = some 1 ∧
    (1 : Nat) ≠ 3 := by
  exact ⟨by decide, by decide⟩

/-- C1 amended: for a requested count N in 3-10, when the structured-parse result
fails validation the parser falls back to plain text and the returned story has
exactly N paragraphs (padding with the fixed fallback paragraph and genre-templated
fallback prompt, truncating when over); when the structured-parse result validates,
it is returned unchanged, whatever its paragraph count. -/
theorem parseStoryResponse_count_amended (raw genre : JSStr) (N : Nat)
    (hN1 : 3 ≤ N) (hN2 : N ≤ 10) :
    (∀ v, JSONUtils.parseWithFallback raw none = Except.ok v →
      JSONUtils.validateStoryStructure v = Except.ok false →
      StoryParsingUtils.parseStoryResponse raw genre N =
        Except.ok (StoryParsingUtils.parseAsPlainText raw genre N) ∧
      (StoryParsingUtils.parseAsPlainText raw genre N).paragraphs.length = N) ∧
    (∀ v, JSONUtils.parseWithFallback raw none = Except.ok v →
      JSONUtils.validateStoryStructure v = Except.ok true →
      StoryParsingUtils.parseStoryResponse raw genre N = Except.ok (toStoryShape v)) := by
  constructor
  · intro v h1 h2
    refine ⟨?_, parseAsPlainText_length raw genre N⟩
    unfold StoryParsingUtils.parseStoryResponse
    simp [h1, h2, Bind.bind, Except.bind, pure, Except.pure]
  · intro v h1 h2
    unfold StoryParsingUtils.parseStoryResponse
    simp [h1, h2, Bind.bind, Except.bind, pure, Except.pure]

/-- Witness for the C1 amended theorem at a plain-text response and N = 3. -/
theorem parseStoryResponse_count_amended_witness :
    StoryParsingUtils.parseStoryResponse "hello".data "fantasy".data 3 =
      Except.ok (StoryParsingUtils.parseAsPlainText "hello".data "fantasy".data 3) ∧
    (StoryParsingUtils.parseAsPlainText "hello".data "fantasy".data 3).paragraphs.length
      = 3 :=
  (parseStoryResponse_count_amended "hello".data "fantasy".data 3 (by decide)
    (by decide)).1 JValue.null rfl rfl

theorem extractStep_blank_keep (genre : JSStr) (paras : List StoryPara) (buf line : JSStr)
    (h1 : (jsTrim line).isEmpty = true) (h2 : buf.isEmpty = true) :
    StoryParsingUtils.extractStep genre (paras, buf) line = (paras, buf) := by
  simp [StoryParsingUtils.extractStep, h1, h2]

theorem extractStep_blank_flush (genre : JSStr) (paras : List StoryPara) (buf line : JSStr)
    (h1 : (jsTrim line).isEmpty = true) (h2 : buf.isEmpty = false) :
    StoryParsingUtils.extractStep genre (paras, buf) line =
      (paras ++ [StoryParsingUtils.flushPara buf genre], []) := by
  simp [StoryParsingUtils.extractStep, h1, h2]

theorem extractStep_accum (genre : JSStr) (paras : List StoryPara) (buf line : JSStr)
    (h1 : (jsTrim line).isEmpty = false)
    (h3 : (StoryParsingUtils.lineEndsPunct line &&
      decide (STORY_CONSTANTS.MIN_PARAGRAPH_LENGTH <
        (buf ++ (if buf.isEmpty then [] else [' ']) ++ jsTrim line).length)) = false) :
    StoryParsingUtils.extractStep genre (paras, buf) line =
      (paras, buf ++ (if buf.isEmpty then [] else [' ']) ++ jsTrim line) := by
  simp only [StoryParsingUtils.extractStep, h1, h3, Bool.not_false, if_true,
    Bool.false_eq_true, if_false]

theorem extractStep_line_flush (genre : JSStr) (paras : List StoryPara) (buf line : JSStr)
    (h1 : (jsTrim line).isEmpty = false)
    (h3 : (StoryParsingUtils.lineEndsPunct line &&
      decide (STORY_CONSTANTS.MIN_PARAGRAPH_LENGTH <
        (buf ++ (if buf.isEmpty then [] else [' ']) ++ jsTrim line).length)) = true) :
    StoryParsingUtils.extractStep genre (paras, buf) line =
      (paras ++ [StoryParsingUtils.flushPara
        (buf ++ (if buf.isEmpty then [] else [' ']) ++ jsTrim line) genre], []) := by
  simp only [StoryParsingUtils.extractStep, h1, h3, Bool.not_false, if_true]

theorem extract_fold_eq_amended (genre : JSStr) :
    ∀ (lines : List JSStr) (paras : List StoryPara) (buf : JSStr),
      (if !(lines.foldl (StoryParsingUtils.extractStep genre) (paras, buf)).2.isEmpty then
        (lines.foldl (StoryParsingUtils.extractStep genre) (paras, buf)).1 ++
          [StoryParsingUtils.flushPara
            (lines.foldl (StoryParsingUtils.extractStep genre) (paras, buf)).2 genre]
      else (lines.foldl (StoryParsingUtils.extractStep genre) (paras, buf)).1) =
      paras ++ splitParasAmended genre buf lines := by
  intro lines
  induction lines with
  | nil =>
    intro paras buf
    simp only [List.foldl_nil, splitParasAmended]
    cases hb : buf.isEmpty <;> simp [hb]
  | cons line rest ih =>
    intro paras buf
    simp only [List.foldl_cons]
    cases h1 : (jsTrim line).isEmpty with
    | true =>
      cases h2 : buf.isEmpty with
      | true =>
        rw [extractStep_blank_keep genre paras buf line h1 h2]
        rw [ih paras buf]
        have hb : buf = [] := List.isEmpty_iff.mp h2
        subst hb
        simp [splitParasAmended, h1]
      | false =>
        rw [extractStep_blank_flush genre paras buf line h1 h2]
        rw [ih (paras ++ [StoryParsingUtils.flushPara buf genre]) []]
        simp only [splitParasAmended, h1, Bool.not_true, Bool.false_eq_true, if_false, h2,
          Bool.not_false, if_true, List.append_assoc, List.singleton_append]
    | false =>
      cases h3 : (StoryParsingUtils.lineEndsPunct line &&
          decide (STORY_CONSTANTS.MIN_PARAGRAPH_LENGTH <
            (buf ++ (if buf.isEmpty then [] else [' ']) ++ jsTrim line).length)) with
      | true =>
        rw [extractStep_line_flush genre paras buf line h1 h3]
        rw [ih (paras ++ [StoryParsingUtils.flushPara
          (buf ++ (if buf.isEmpty then [] else [' ']) ++ jsTrim line) genre]) []]
        rw [List.append_assoc buf] at h3
        simp only [splitParasAmended, h1, h3, Bool.not_false, if_true, List.append_assoc,
          List.singleton_append]
      | false =>
        rw [extractStep_accum genre paras buf line h1 h3]
        rw [ih paras (buf ++ (if buf.isEmpty then [] else [' ']) ++ jsTrim line)]
        rw [List.append_assoc buf] at h3
        simp only [splitParasAmended, h1, h3, Bool.not_false, if_true, Bool.false_eq_true,
          if_false, List.append_assoc]
theorem splitAtMarker_of_find (lines : List JSStr) :
    (∀ line, List.find? StoryParsingUtils.containsMarker lines = some line →
      splitAtMarker lines = some (line, lines.drop (lines.indexOf line + 1))) ∧
    (List.find? StoryParsingUtils.containsMarker lines = none →
      splitAtMarker lines = none) := by
  induction lines with
  | nil => exact ⟨fun line h => by simp at h, fun _ => rfl⟩
  | cons l rest ih =>
    constructor
    · intro line h
      by_cases hm : StoryParsingUtils.containsMarker l = true
      · rw [List.find?_cons_of_pos rest hm] at h
        cases h
        unfold splitAtMarker
        rw [if_pos hm]
        have : (l :: rest).indexOf l = 0 := by simp [List.indexOf_cons]
        rw [this]
        rfl
      · rw [List.find?_cons_of_neg rest hm] at h
        have hmarked : StoryParsingUtils.containsMarker line = true := List.find?_some h
        have hne : (l == line) = false := by
          by_cases he : l = line
          · subst he; exact absurd hmarked hm
          · simp [he]
        unfold splitAtMarker
        rw [if_neg hm]
        rw [ih.1 line h]
        rw [List.indexOf_cons, hne]
        simp
    · intro h
      by_cases hm : StoryParsingUtils.containsMarker l = true
      · rw [List.find?_cons_of_pos rest hm] at h; cases h
      · rw [List.find?_cons_of_neg rest hm] at h
        unfold splitAtMarker
        rw [if_neg hm]
        exact ih.2 h

/-- C3 amended: the plain-text fallback equals the amended description: the first
line containing a summary/preface/story marker (case-insensitive) supplies the
preface as the trimmed text after its first colon, defaulting to the fixed fallback
preface; the remaining nonblank lines are accumulated into a buffer that is flushed
when the raw line (including any trailing whitespace) ends in a period, exclamation
or question mark and the buffer exceeds the 100-character threshold (a blank-line
flush exists in the source but is unreachable, since blank lines are filtered out
first); a nonempty final buffer is flushed, and the result is padded/truncated to
the requested count. -/
theorem parseAsPlainText_eq_amended (raw genre : JSStr) (nPara : Nat) :
    StoryParsingUtils.parseAsPlainText raw genre nPara =
      parseAsPlainTextAmended raw genre nPara := by
  unfold StoryParsingUtils.parseAsPlainText parseAsPlainTextAmended
  have hext : ∀ ls, StoryParsingUtils.extractParagraphs ls genre nPara =
      padTruncate genre nPara (splitParasAmended genre [] ls) := by
    intro ls
    unfold StoryParsingUtils.extractParagraphs padTruncate
    have hfold := extract_fold_eq_amended genre ls [] []
    simp only [List.nil_append] at hfold
    simp only [hfold]
  rcases hf : List.find? StoryParsingUtils.containsMarker
      ((raw.splitOn '\n').filter (fun line => !(jsTrim line).isEmpty)) with _ | line
  · simp only [hf, (splitAtMarker_of_find _).2 hf, hext]
  · simp only [hf, (splitAtMarker_of_find _).1 line hf, hext]

/-- C3 counterexample: with a first line ending in a period followed by a trailing
space, the claimed flush rule (the buffer ends in sentence punctuation and exceeds
the threshold) would flush after the first line, but the source tests the raw line,
so the two lines are merged into one paragraph: the plain-text result differs from
the claimed one. -/
theorem plaintext_flush_tests_raw_line :
    (StoryParsingUtils.parseStoryResponse
        (List.replicate 101 'A' ++ '.' :: ' ' :: '\n' :: (List.replicate 101 'B' ++ ['.']))
        "fantasy".data 3).toOption =
      some (StoryParsingUtils.parseAsPlainText
        (List.replicate 101 'A' ++ '.' :: ' ' :: '\n' :: (List.replicate 101 'B' ++ ['.']))
        "fantasy".data 3) ∧
    StoryParsingUtils.parseAsPlainText
        (List.replicate 101 'A' ++ '.' :: ' ' :: '\n' :: (List.replicate 101 'B' ++ ['.']))
        "fantasy".data 3 ≠
      parseAsPlainTextClaimed
        (List.replicate 101 'A' ++ '.' :: ' ' :: '\n' :: (List.replicate 101 'B' ++ ['.']))
        "fantasy".data 3 := by
  exact ⟨by decide, by decide⟩

theorem lexStrBody_close (X : JSStr) : lexStrBody ('"' :: X) = some ([], X) := by
  conv_lhs => unfold lexStrBody
  simp

theorem lexStrBody_esc_quote (X : JSStr) :
    lexStrBody ('\\' :: '"' :: X) = (lexStrBody X).map (fun p => ('"' :: p.1, p.2)) := by
  conv_lhs => unfold lexStrBody
  simp

theorem lexStrBody_esc_back (X : JSStr) :
    lexStrBody ('\\' :: '\\' :: X) = (lexStrBody X).map (fun p => ('\\' :: p.1, p.2)) := by
  conv_lhs => unfold lexStrBody
  simp

theorem lexStrBody_esc_b (X : JSStr) :
    lexStrBody ('\\' :: 'b' :: X) = (lexStrBody X).map (fun p => ('\x08' :: p.1, p.2)) := by
  conv_lhs => unfold lexStrBody
  simp

theorem lexStrBody_esc_t (X : JSStr) :
    lexStrBody ('\\' :: 't' :: X) = (lexStrBody X).map (fun p => ('\t' :: p.1, p.2)) := by
  conv_lhs => unfold lexStrBody
  simp

theorem lexStrBody_esc_n (X : JSStr) :
    lexStrBody ('\\' :: 'n' :: X) = (lexStrBody X).map (fun p => ('\n' :: p.1, p.2)) := by
  conv_lhs => unfold lexStrBody
  simp

theorem lexStrBody_esc_f (X : JSStr) :
    lexStrBody ('\\' :: 'f' :: X) = (lexStrBody X).map (fun p => ('\x0c' :: p.1, p.2)) := by
  conv_lhs => unfold lexStrBody
  simp

theorem lexStrBody_esc_r (X : JSStr) :
    lexStrBody ('\\' :: 'r' :: X) = (lexStrBody X).map (fun p => ('\r' :: p.1, p.2)) := by
  conv_lhs => unfold lexStrBody
  simp

theorem lexStrBody_esc_u (d1 d2 d3 d4 : Char) (a b2 c2 d : Nat) (X : JSStr)
    (h1 : hexDigitVal d1 = some a) (h2 : hexDigitVal d2 = some b2)
    (h3 : hexDigitVal d3 = some c2) (h4 : hexDigitVal d4 = some d) :
    lexStrBody ('\\' :: 'u' :: d1 :: d2 :: d3 :: d4 :: X) =
      (lexStrBody X).map
        (fun p => (Char.ofNat (((a * 16 + b2) * 16 + c2) * 16 + d) :: p.1, p.2)) := by
  conv_lhs => unfold lexStrBody
  simp [h1, h2, h3, h4]

theorem lexStrBody_plain (c : Char) (X : JSStr) (h1 : ¬ c = '"') (h2 : ¬ c = '\\')
    (h3 : ¬ c.toNat < 0x20) :
    lexStrBody (c :: X) = (lexStrBody X).map (fun p => (c :: p.1, p.2)) := by
  conv_lhs => unfold lexStrBody
  rw [if_neg h1, if_neg h2, if_neg h3]

theorem hexVal_hexChar : ∀ n, n < 16 → hexDigitVal (hexDigitChar n) = some n := by decide

theorem lexStrBody_encode : ∀ (s rest : JSStr),
    lexStrBody (s.flatMap encodeJsonChar ++ '"' :: rest) = some (s, rest) := by
  intro s
  induction s with
  | nil => intro rest; exact lexStrBody_close rest
  | cons c cs ih =>
    intro rest
    simp only [List.flatMap_cons, List.append_assoc]
    by_cases h1 : c = '"'
    · subst h1
      rw [show encodeJsonChar '"' = ['\\', '"'] from rfl]
      rw [List.cons_append, List.cons_append, List.nil_append, lexStrBody_esc_quote, ih rest]
      rfl
    · by_cases h2 : c = '\\'
      · subst h2
        rw [show encodeJsonChar '\\' = ['\\', '\\'] from rfl]
        rw [List.cons_append, List.cons_append, List.nil_append, lexStrBody_esc_back, ih rest]
        rfl
      · by_cases h3 : c = '\x08'
        · subst h3
          rw [show encodeJsonChar '\x08' = ['\\', 'b'] from rfl]
          rw [List.cons_append, List.cons_append, List.nil_append, lexStrBody_esc_b, ih rest]
          rfl
        · by_cases h4 : c = '\t'
          · subst h4
            rw [show encodeJsonChar '\t' = ['\\', 't'] from rfl]
            rw [List.cons_append, List.cons_append, List.nil_append, lexStrBody_esc_t, ih rest]
            rfl
          · by_cases h5 : c = '\n'
            · subst h5
              rw [show encodeJsonChar '\n' = ['\\', 'n'] from rfl]
              rw [List.cons_append, List.cons_append, List.nil_append, lexStrBody_esc_n, ih rest]
              rfl
            · by_cases h6 : c = '\x0c'
              · subst h6
                rw [show encodeJsonChar '\x0c' = ['\\', 'f'] from rfl]
                rw [List.cons_append, List.cons_append, List.nil_append, lexStrBody_esc_f, ih rest]
                rfl
              · by_cases h7 : c = '\r'
                · subst h7
                  rw [show encodeJsonChar '\r' = ['\\', 'r'] from rfl]
                  rw [List.cons_append, List.cons_append, List.nil_append, lexStrBody_esc_r, ih rest]
                  rfl
                · by_cases h8 : c.toNat < 0x20
                  · have he : encodeJsonChar c =
                        ['\\', 'u', '0', '0', hexDigitChar (c.toNat / 16),
                          hexDigitChar (c.toNat % 16)] := by
                      unfold encodeJsonChar
                      rw [if_neg h1, if_neg h2, if_neg h3, if_neg h4, if_neg h5, if_neg h6,
                        if_neg h7, if_pos h8]
                    rw [he]
                    simp only [List.cons_append, List.nil_append]
                    rw [lexStrBody_esc_u '0' '0' (hexDigitChar (c.toNat / 16))
                      (hexDigitChar (c.toNat % 16)) 0 0 (c.toNat / 16) (c.toNat % 16) _
                      (by decide) (by decide) (hexVal_hexChar _ (by omega))
                      (hexVal_hexChar _ (by omega))]
                    rw [ih rest]
                    have harith : c.toNat / 16 * 16 + c.toNat % 16 = c.toNat := by omega
                    simp [harith, Char.ofNat_toNat]
                  · have he : encodeJsonChar c = [c] := by
                      unfold encodeJsonChar
                      rw [if_neg h1, if_neg h2, if_neg h3, if_neg h4, if_neg h5, if_neg h6,
                        if_neg h7, if_neg h8]
                    rw [he]
                    rw [List.singleton_append, lexStrBody_plain c _ h1 h2 h8, ih rest]
                    rfl

theorem skipWs_cons (c : Char) (l : JSStr) (h : isJsWs c = false) :
    skipWs (c :: l) = c :: l := by
  simp [skipWs, List.dropWhile_cons, h]

theorem parseJsonVal_string (f : Nat) (r : JSStr) :
    parseJsonVal (Nat.succ f) ('"' :: r) =
      (lexStrBody r).map (fun p => (JValue.str p.1, p.2)) := by
  conv_lhs => unfold parseJsonVal
  simp [skipWs_cons, isJsWs]

theorem parseJsonVal_objStart (f : Nat) (r : JSStr) :
    parseJsonVal (Nat.succ f) ('\x7b' :: '"' :: r) =
      (parseObjMembers f ('"' :: r)).map (fun p => (JValue.obj p.1, p.2)) := by
  conv_lhs => unfold parseJsonVal
  simp [skipWs_cons, isJsWs, skipWs]

theorem parseJsonVal_arrStartObj (f : Nat) (r : JSStr) :
    parseJsonVal (Nat.succ f) ('[' :: '\x7b' :: r) =
      (parseArrElems f ('\x7b' :: r)).map (fun p => (JValue.arr p.1, p.2)) := by
  conv_lhs => unfold parseJsonVal
  simp [skipWs_cons, isJsWs, skipWs]

theorem parseJsonVal_arrEmpty (f : Nat) (r : JSStr) :
    parseJsonVal (Nat.succ f) ('[' :: ']' :: r) = some (JValue.arr [], r) := by
  conv_lhs => unfold parseJsonVal
  simp [skipWs_cons, isJsWs, skipWs]

theorem parseObjMembers_step (f : Nat) (r : JSStr) :
    parseObjMembers (Nat.succ f) ('"' :: r) =
      match lexStrBody r with
      | none => none
      | some (key, r1) =>
        match skipWs r1 with
        | ':' :: r2 =>
          match parseJsonVal f r2 with
          | none => none
          | some (v, r3) =>
            match skipWs r3 with
            | ',' :: r4 =>
              (parseObjMembers f (skipWs r4)).map (fun p => ((key, v) :: p.1, p.2))
            | '\x7d' :: r4 => some ([(key, v)], r4)
            | _ => none
        | _ => none := by
  conv_lhs => unfold parseObjMembers
  simp

theorem parseArrElems_step (f : Nat) (l : JSStr) :
    parseArrElems (Nat.succ f) l =
      match parseJsonVal f l with
      | none => none
      | some (v, r) =>
        match skipWs r with
        | ',' :: r1 => (parseArrElems f r1).map (fun p => (v :: p.1, p.2))
        | ']' :: r1 => some ([v], r1)
        | _ => none := by
  conv_lhs => unfold parseArrElems

theorem lexStr_text (Y : JSStr) :
    lexStrBody ('t' :: 'e' :: 'x' :: 't' :: '"' :: Y) = some ("text".data, Y) := by
  simp +decide [lexStrBody_plain, lexStrBody_close]

theorem lexStr_imagePrompt (Y : JSStr) :
    lexStrBody ('i' :: 'm' :: 'a' :: 'g' :: 'e' :: 'P' :: 'r' :: 'o' :: 'm' :: 'p' :: 't'
      :: '"' :: Y) = some ("imagePrompt".data, Y) := by
  simp +decide [lexStrBody_plain, lexStrBody_close]

theorem lexStr_preface (Y : JSStr) :
    lexStrBody ('p' :: 'r' :: 'e' :: 'f' :: 'a' :: 'c' :: 'e' :: '"' :: Y) =
      some ("preface".data, Y) := by
  simp +decide [lexStrBody_plain, lexStrBody_close]

theorem lexStr_paragraphs (Y : JSStr) :
    lexStrBody ('p' :: 'a' :: 'r' :: 'a' :: 'g' :: 'r' :: 'a' :: 'p' :: 'h' :: 's' :: '"'
      :: Y) = some ("paragraphs".data, Y) := by
  simp +decide [lexStrBody_plain, lexStrBody_close]

theorem parseJsonVal_para (f : Nat) (p : StoryPara) (rest : JSStr) :
    parseJsonVal (Nat.succ (Nat.succ (Nat.succ (Nat.succ f)))) (stringifyPara p ++ rest) =
      some (storyParaJValue p, rest) := by
  unfold stringifyPara encodeJsonStr
  simp only [List.cons_append, List.append_assoc, List.nil_append]
  rw [parseJsonVal_objStart]
  rw [parseObjMembers_step]
  rw [lexStr_text]
  simp only [skipWs_cons _ _ (by decide : isJsWs ':' = false)]
  rw [parseJsonVal_string]
  rw [lexStrBody_encode]
  simp only [Option.map_some', skipWs_cons _ _ (by decide : isJsWs ',' = false)]
  simp only [skipWs_cons _ _ (by decide : isJsWs '"' = false)]
  rw [parseObjMembers_step]
  rw [lexStr_imagePrompt]
  simp only [skipWs_cons _ _ (by decide : isJsWs ':' = false)]
  rw [parseJsonVal_string]
  rw [lexStrBody_encode]
  simp only [Option.map_some', skipWs_cons _ _ (by decide : isJsWs '\x7d' = false)]
  rfl

theorem parseArrElems_paras (f : Nat) :
    ∀ (ps : List StoryPara) (p : StoryPara) (rest : JSStr),
      parseArrElems
        (Nat.succ (Nat.succ (Nat.succ (Nat.succ (Nat.succ (ps.length + f))))))
        (stringifyParas (p :: ps) ++ ']' :: rest) =
      some ((p :: ps).map storyParaJValue, rest) := by
  intro ps
  induction ps generalizing f with
  | nil =>
    intro p rest
    rw [parseArrElems_step]
    rw [show stringifyParas [p] = stringifyPara p from rfl]
    rw [show (([] : List StoryPara).length + f) = f from by simp]
    rw [parseJsonVal_para]
    simp only [skipWs_cons _ _ (by decide : isJsWs ']' = false)]
    rfl
  | cons q qs ih =>
    intro p rest
    rw [parseArrElems_step]
    rw [show stringifyParas (p :: q :: qs) = stringifyPara p ++ ',' :: stringifyParas (q :: qs)
      from rfl]
    simp only [List.length_cons, List.append_assoc, List.cons_append]
    rw [show (qs.length + 1 + f) = Nat.succ (qs.length + f) from by omega]
    rw [parseJsonVal_para]
    simp only [skipWs_cons _ _ (by decide : isJsWs ',' = false)]
    rw [show (qs.length + f).succ + 4 =
      Nat.succ (Nat.succ (Nat.succ (Nat.succ (Nat.succ (qs.length + f))))) from by omega]
    rw [ih f q rest]
    rfl

theorem parseJsonVal_story (f : Nat) (S : StoryShape) (rest : JSStr) :
    parseJsonVal
      (Nat.succ (Nat.succ (Nat.succ (Nat.succ (Nat.succ (Nat.succ (Nat.succ (Nat.succ
        (Nat.succ (S.paragraphs.length + f))))))))))
      (stringifyStory S ++ rest) =
      some (storyJValue S, rest) := by
  obtain ⟨pre, ps⟩ := S
  unfold stringifyStory encodeJsonStr
  simp only [List.cons_append, List.append_assoc, List.nil_append]
  rw [parseJsonVal_objStart]
  rw [parseObjMembers_step]
  rw [lexStr_preface]
  simp only [skipWs_cons _ _ (by decide : isJsWs ':' = false)]
  rw [parseJsonVal_string]
  rw [lexStrBody_encode]
  simp only [Option.map_some', skipWs_cons _ _ (by decide : isJsWs ',' = false)]
  simp only [skipWs_cons _ _ (by decide : isJsWs '"' = false)]
  rw [parseObjMembers_step]
  rw [lexStr_paragraphs]
  simp only [skipWs_cons _ _ (by decide : isJsWs ':' = false)]
  cases ps with
  | nil =>
    simp only [stringifyParas, List.length_nil, List.nil_append]
    rw [show 0 + f + 6 = Nat.succ (f + 5) from by omega]
    rw [parseJsonVal_arrEmpty]
    simp only [skipWs_cons _ _ (by decide : isJsWs '\x7d' = false)]
    rfl
  | cons q qs =>
    obtain ⟨t, ht⟩ : ∃ t, stringifyParas (q :: qs) = '\x7b' :: t := by
      cases qs <;> exact ⟨_, rfl⟩
    simp only [List.length_cons]
    rw [show qs.length + 1 + f + 6 =
      Nat.succ (Nat.succ (Nat.succ (Nat.succ (Nat.succ (Nat.succ (qs.length + (f + 1)))))))
      from by omega]
    rw [ht]
    simp only [List.cons_append]
    rw [parseJsonVal_arrStartObj]
    rw [← List.cons_append, ← ht]
    rw [parseArrElems_paras (f + 1) qs q ('\x7d' :: rest)]
    simp only [Option.map_some', skipWs_cons _ _ (by decide : isJsWs '\x7d' = false)]
    rfl

theorem stringifyParas_length : ∀ ps : List StoryPara, ps.length ≤ (stringifyParas ps).length := by
  intro ps
  induction ps with
  | nil => simp [stringifyParas]
  | cons p ps ih =>
    cases ps with
    | nil => simp [stringifyParas, stringifyPara]
    | cons q rest =>
      rw [show stringifyParas (p :: q :: rest) =
        stringifyPara p ++ ',' :: stringifyParas (q :: rest) from rfl]
      simp only [List.length_append, List.length_cons] at *
      omega

theorem jsonParse_stringifyStory (S : StoryShape) :
    jsonParse (stringifyStory S) = Except.ok (storyJValue S) := by
  have hsub := stringifyParas_length S.paragraphs
  have h8 : 8 + S.paragraphs.length ≤ (stringifyStory S).length := by
    rw [stringifyStory]
    simp only [List.length_cons, List.length_append]
    omega
  unfold jsonParse
  have hp := parseJsonVal_story ((stringifyStory S).length + 1 - 9 - S.paragraphs.length) S []
  rw [List.append_nil] at hp
  rw [show (stringifyStory S).length + 1 =
    Nat.succ (Nat.succ (Nat.succ (Nat.succ (Nat.succ (Nat.succ (Nat.succ (Nat.succ
      (Nat.succ (S.paragraphs.length +
        ((stringifyStory S).length + 1 - 9 - S.paragraphs.length)))))))))) from by omega]
  rw [hp]
  simp [skipWs]

theorem dropWhile_ws_all (p : Char → Bool) (w : JSStr) (h : ∀ c ∈ w, p c = true) :
    w.dropWhile p = [] := by
  induction w with
  | nil => rfl
  | cons c t ih =>
    rw [List.dropWhile_cons, if_pos (h c (by simp))]
    exact ih (fun d hd => h d (by simp [hd]))

theorem jsTrim_wrap (M w1 w2 : JSStr)
    (h1 : ∀ c ∈ w1, isJsWs c = true) (h2 : ∀ c ∈ w2, isJsWs c = true) :
    jsTrim (w1 ++ ('\x7b' :: M ++ ['\x7d']) ++ w2) = '\x7b' :: M ++ ['\x7d'] := by
  unfold jsTrim
  rw [List.append_assoc, List.dropWhile_append, dropWhile_ws_all _ w1 h1]
  simp only [List.isEmpty_nil, if_true]
  rw [show ('\x7b' :: M ++ ['\x7d']) ++ w2 = '\x7b' :: (M ++ ['\x7d'] ++ w2) from by
    simp [List.append_assoc]]
  rw [List.dropWhile_cons, if_neg (by decide)]
  rw [show ('\x7b' :: (M ++ ['\x7d'] ++ w2)).reverse =
    w2.reverse ++ ('\x7d' :: (M.reverse ++ ['\x7b'])) from by simp]
  rw [List.dropWhile_append, dropWhile_ws_all _ w2.reverse (by
    intro c hc; exact h2 c (by simpa using hc))]
  simp only [List.isEmpty_nil, if_true]
  rw [List.dropWhile_cons, if_neg (by decide)]
  simp

theorem jsTrim_cons_head (a : Char) (t : JSStr) (h : isJsWs a = false) :
    ∃ t', jsTrim (a :: t) = a :: t' := by
  unfold jsTrim
  rw [List.dropWhile_cons, if_neg (by simp [h])]
  rw [show (a :: t).reverse = t.reverse ++ [a] from by simp]
  rw [List.dropWhile_append]
  by_cases he : (t.reverse.dropWhile isJsWs).isEmpty
  · rw [if_pos he]
    exact ⟨[], by rw [List.dropWhile_cons, if_neg (by simp [h])]; rfl⟩
  · rw [if_neg he]
    refine ⟨(t.reverse.dropWhile isJsWs).reverse, ?_⟩
    rw [List.reverse_append]
    obtain ⟨c, l, hcl⟩ : ∃ c l, t.reverse.dropWhile isJsWs = c :: l := by
      cases hx : t.reverse.dropWhile isJsWs with
      | nil => rw [hx] at he; simp at he
      | cons c l => exact ⟨c, l, rfl⟩
    rw [hcl]
    simp

theorem lexNumInt_badHead (a : Char) (r : JSStr) (h8 : isDigitChar a = false) :
    lexNumInt (a :: r) = none := by
  have h0 : a ≠ '0' := by
    intro e; subst e; simp [isDigitChar] at h8
  conv_lhs => unfold lexNumInt
  split
  · next heq => rw [List.cons.injEq] at heq; exact absurd heq.1 h0
  · next _ c rest hne heq =>
    rw [List.cons.injEq] at heq
    obtain ⟨rfl, rfl⟩ := heq
    simp [h8]
  · next heq => exact absurd heq (by simp)

theorem lexNum_badHead (a : Char) (r : JSStr) (h7 : a ≠ '-') (h8 : isDigitChar a = false) :
    lexNum (a :: r) = none := by
  unfold lexNum
  split
  next _ sign body heq =>
    split at heq
    · next heq2 => rw [List.cons.injEq] at heq2; exact absurd heq2.1 h7
    · rw [Prod.mk.injEq] at heq
      obtain ⟨h1, h2⟩ := heq
      subst h1
      subst h2
      simp only [lexNumInt_badHead a r h8]

theorem parseJsonVal_badHead (f : Nat) (a : Char) (r : JSStr)
    (hws : isJsWs a = false) (h1 : a ≠ '\x7b') (h2 : a ≠ '[') (h3 : a ≠ '"')
    (h4 : a ≠ 't') (h5 : a ≠ 'f') (h6 : a ≠ 'n') (h7 : a ≠ '-')
    (h8 : isDigitChar a = false) :
    parseJsonVal (Nat.succ f) (a :: r) = none := by
  conv_lhs => unfold parseJsonVal
  rw [skipWs_cons a r hws]
  split
  · next heq => exact absurd heq (by simp)
  next c rr heq =>
  rw [List.cons.injEq] at heq
  obtain ⟨h9, h10⟩ := heq
  subst h9
  subst h10
  rw [if_neg (by simp [h1]), if_neg (by simp [h2]), if_neg (by simp [h3])]
  rw [if_neg (by simp [startsWithStr, List.take, List.cons.injEq]; intro e; exact absurd e h4)]
  rw [if_neg (by simp [startsWithStr, List.take, List.cons.injEq]; intro e; exact absurd e h5)]
  rw [if_neg (by simp [startsWithStr, List.take, List.cons.injEq]; intro e; exact absurd e h6)]
  rw [lexNum_badHead a r h7 h8]
  rfl

theorem jsonParse_badHead (a : Char) (r : JSStr)
    (hws : isJsWs a = false) (h1 : a ≠ '\x7b') (h2 : a ≠ '[') (h3 : a ≠ '"')
    (h4 : a ≠ 't') (h5 : a ≠ 'f') (h6 : a ≠ 'n') (h7 : a ≠ '-')
    (h8 : isDigitChar a = false) :
    jsonParse (a :: r) = Except.error JSError.syntaxError := by
  unfold jsonParse
  rw [show (a :: r).length + 1 = Nat.succ ((a :: r).length) from by omega]
  rw [parseJsonVal_badHead _ a r hws h1 h2 h3 h4 h5 h6 h7 h8]

theorem findIdx_after_clean (p : Char → Bool) (A : JSStr) (c0 : Char) (R : JSStr)
    (hA : ∀ c ∈ A, p c = false) (hc : p c0 = true) :
    ∀ i, List.findIdx? p (A ++ c0 :: R) i = some (A.length + i) := by
  induction A with
  | nil => intro i; simp [List.findIdx?_cons, hc]
  | cons a A' ih =>
    intro i
    rw [List.cons_append, List.findIdx?_cons]
    rw [hA a (by simp)]
    rw [ih (fun c hcm => hA c (by simp [hcm])) (i + 1)]
    simp only [List.length_cons, Bool.false_eq_true, if_false]
    congr 1
    omega

theorem jsMatchBraces_exact (A M B : JSStr)
    (hA : ∀ c ∈ A, c ≠ '\x7b') (hB : ∀ c ∈ B, c ≠ '\x7d') :
    JSONUtils.jsMatchBraces (A ++ ('\x7b' :: M ++ ['\x7d']) ++ B) =
      some ('\x7b' :: M ++ ['\x7d']) := by
  unfold JSONUtils.jsMatchBraces
  rw [show A ++ ('\x7b' :: M ++ ['\x7d']) ++ B = A ++ '\x7b' :: (M ++ '\x7d' :: B) from by
    simp [List.append_assoc]]
  rw [findIdx_after_clean _ A '\x7b' _ (fun c hc => by simp [hA c hc]) (by decide) 0]
  rw [show (A ++ '\x7b' :: (M ++ '\x7d' :: B)).reverse =
    B.reverse ++ '\x7d' :: (M.reverse ++ '\x7b' :: A.reverse) from by simp]
  rw [findIdx_after_clean _ B.reverse '\x7d' _
    (fun c hc => by simp [hB c (by simpa using hc)]) (by decide) 0]
  have hlen : (A ++ '\x7b' :: (M ++ '\x7d' :: B)).length =
      A.length + M.length + B.length + 2 := by
    simp [List.length_append]
    omega
  rw [hlen, List.length_reverse]
  simp only [Nat.add_zero]
  rw [if_pos (by omega)]
  rw [show A.length + M.length + B.length + 2 - 1 - B.length - A.length + 1 =
    M.length + 1 + 1 from by omega]
  rw [List.drop_left]
  rw [List.take_succ_cons]
  rw [show M ++ '\x7d' :: B = (M ++ ['\x7d']) ++ B from by simp]
  rw [show M.length + 1 = (M ++ ['\x7d']).length from by simp]
  rw [List.take_left]
  simp

theorem validateParas_map (ps : List StoryPara) :
    JSONUtils.validateParas (ps.map storyParaJValue) = Except.ok true := by
  induction ps with
  | nil => rfl
  | cons p t ih => exact ih

theorem validateStory_storyJValue (S : StoryShape) :
    JSONUtils.validateStoryStructure (storyJValue S) = Except.ok true := by
  obtain ⟨pre, ps⟩ := S
  exact Eq.trans rfl (validateParas_map ps)

theorem storyParas_extract (ps : List StoryPara) :
    (ps.map storyParaJValue).map (fun p =>
      ({ text := match jGetPure p "text".data with | JValue.str s => s | _ => []
         imagePrompt :=
           match jGetPure p "imagePrompt".data with | JValue.str s => s | _ => [] } :
        StoryPara)) = ps := by
  induction ps with
  | nil => rfl
  | cons q t ih =>
    simp only [List.map_cons, ih]
    rfl

theorem toStoryShape_storyJValue (S : StoryShape) : toStoryShape (storyJValue S) = S := by
  obtain ⟨pre, ps⟩ := S
  exact Eq.trans rfl (congrArg (StoryShape.mk pre) (storyParas_extract ps))

theorem stringifyStory_decomp (S : StoryShape) :
    stringifyStory S = '\x7b' ::
      ("\"preface\":".data ++ encodeJsonStr S.preface ++ ",\"paragraphs\":[".data ++
        stringifyParas S.paragraphs ++ [']']) ++ ['\x7d'] := by
  unfold stringifyStory
  simp [List.append_assoc]

theorem parseWithFallback_direct (S : StoryShape) (w1 w2 : JSStr)
    (h1 : ∀ c ∈ w1, isJsWs c = true) (h2 : ∀ c ∈ w2, isJsWs c = true) :
    JSONUtils.parseWithFallback (w1 ++ stringifyStory S ++ w2) none =
      Except.ok (storyJValue S) := by
  unfold JSONUtils.parseWithFallback
  rw [stringifyStory_decomp, jsTrim_wrap _ _ _ h1 h2, ← stringifyStory_decomp,
    jsonParse_stringifyStory]

theorem parseWithFallback_fenced (S : StoryShape) (P1 P2 : JSStr) (a : Char)
    (hP1 : ∀ c ∈ P1, c ≠ '\x7b') (hP2 : ∀ c ∈ P2, c ≠ '\x7d')
    (hhead : P1.head? = some a) (hws : isJsWs a = false)
    (ha1 : a ≠ '\x7b') (ha2 : a ≠ '[') (ha3 : a ≠ '"') (ha4 : a ≠ 't') (ha5 : a ≠ 'f')
    (ha6 : a ≠ 'n') (ha7 : a ≠ '-') (ha8 : isDigitChar a = false) :
    JSONUtils.parseWithFallback
      (P1 ++ "```json\n".data ++ stringifyStory S ++ "\n```".data ++ P2) none =
      Except.ok (storyJValue S) := by
  have hcons : a :: P1.tail = P1 := List.cons_head?_tail hhead
  unfold JSONUtils.parseWithFallback
  rw [show P1 ++ "```json\n".data ++ stringifyStory S ++ "\n```".data ++ P2 =
    P1 ++ ("```json\n".data ++ stringifyStory S ++ "\n```".data ++ P2) from by
      simp [List.append_assoc]]
  rw [← hcons, List.cons_append]
  obtain ⟨t', ht'⟩ := jsTrim_cons_head a
    (P1.tail ++ ("```json\n".data ++ stringifyStory S ++ "\n```".data ++ P2)) hws
  rw [ht', jsonParse_badHead a t' hws ha1 ha2 ha3 ha4 ha5 ha6 ha7 ha8]
  rw [show a :: (P1.tail ++ ("```json\n".data ++ stringifyStory S ++ "\n```".data ++ P2)) =
    (a :: P1.tail ++ "```json\n".data) ++ stringifyStory S ++ ("\n```".data ++ P2) from by
      simp [List.append_assoc]]
  rw [stringifyStory_decomp]
  rw [jsMatchBraces_exact (a :: P1.tail ++ "```json\n".data) _ ("\n```".data ++ P2)
    (by
      intro c hc
      rcases List.mem_append.mp hc with hc1 | hc2
      · exact hP1 c (by rw [← hcons]; exact hc1)
      · exact (by decide : ∀ d ∈ "```json\n".data, d ≠ '\x7b') c hc2)
    (by
      intro c hc
      rcases List.mem_append.mp hc with hc1 | hc2
      · exact (by decide : ∀ d ∈ "\n```".data, d ≠ '\x7d') c hc1
      · exact hP2 c hc2)]
  rw [← stringifyStory_decomp]
  simp only [jsonParse_stringifyStory]

/-- C2: for every story object S with a string preface and an array of paragraph
objects each having string text and string imagePrompt, parseStoryResponse returns S
unchanged both when given exactly the JSON serialization of S up to surrounding
whitespace, and when given that JSON wrapped in a markdown code fence with
leading/trailing prose (prose free of braces, starting with an ordinary character
that cannot begin a JSON value). -/
theorem parseStoryResponse_roundtrip (S : StoryShape) (genre : JSStr) (nPara : Nat)
    (w1 w2 P1 P2 : JSStr) (a : Char)
    (hw1 : ∀ c ∈ w1, isJsWs c = true) (hw2 : ∀ c ∈ w2, isJsWs c = true)
    (hP1 : ∀ c ∈ P1, c ≠ '\x7b') (hP2 : ∀ c ∈ P2, c ≠ '\x7d')
    (hhead : P1.head? = some a) (hws : isJsWs a = false)
    (ha1 : a ≠ '\x7b') (ha2 : a ≠ '[') (ha3 : a ≠ '"') (ha4 : a ≠ 't') (ha5 : a ≠ 'f')
    (ha6 : a ≠ 'n') (ha7 : a ≠ '-') (ha8 : isDigitChar a = false) :
    StoryParsingUtils.parseStoryResponse (w1 ++ stringifyStory S ++ w2) genre nPara =
      Except.ok S ∧
    StoryParsingUtils.parseStoryResponse
      (P1 ++ "```json\n".data ++ stringifyStory S ++ "\n```".data ++ P2) genre nPara =
      Except.ok S := by
  constructor
  · unfold StoryParsingUtils.parseStoryResponse
    rw [parseWithFallback_direct S w1 w2 hw1 hw2]
    simp [validateStory_storyJValue, toStoryShape_storyJValue, Bind.bind, Except.bind,
      pure, Except.pure]
  · unfold StoryParsingUtils.parseStoryResponse
    rw [parseWithFallback_fenced S P1 P2 a hP1 hP2 hhead hws ha1 ha2 ha3 ha4 ha5
        ha6 ha7 ha8]
    simp [validateStory_storyJValue, toStoryShape_storyJValue, Bind.bind, Except.bind,
      pure, Except.pure]

/-- Witness for the C2 theorem at a one-paragraph story, whitespace wrapping
space-newline / tab, and the fenced form with prose around the fence. -/
theorem parseStoryResponse_roundtrip_witness :
    (∀ c ∈ (" \n".data : JSStr), isJsWs c = true) ∧
    (StoryParsingUtils.parseStoryResponse
        (" \n".data ++
          stringifyStory ⟨"A".data, [⟨"B".data, "C".data⟩]⟩ ++ "\t".data)
        "fantasy".data 3 =
        Except.ok ⟨"A".data, [⟨"B".data, "C".data⟩]⟩ ∧
      StoryParsingUtils.parseStoryResponse
        ("Here is the story:\n".data ++ "```json\n".data ++
          stringifyStory ⟨"A".data, [⟨"B".data, "C".data⟩]⟩ ++
          "\n```".data ++ "Hope you like it!".data)
        "fantasy".data 3 =
        Except.ok ⟨"A".data, [⟨"B".data, "C".data⟩]⟩) :=
  ⟨by decide,
    parseStoryResponse_roundtrip ⟨"A".data, [⟨"B".data, "C".data⟩]⟩ "fantasy".data 3
      " \n".data "\t".data "Here is the story:\n".data "Hope you like it!".data 'H'
      (by decide) (by decide) (by decide) (by decide) (by decide) (by decide)
      (by decide) (by decide) (by decide) (by decide) (by decide) (by decide)
      (by decide) (by decide)⟩
